import Mathlib

/-!
devnull: request introspection with B3 trace-context propagation.

A shallow embedding of `main.go`: the `Tracing` middleware, the `devnuller`
handler built by `NewRouter`, and the lifecycle of `Config.Run`.

Conventions of the embedding.

* A Go `string` is a Lean `String`, that is, well-formed UTF-8 text.  Positions
  inside a string are counted in characters; every character the library code
  inspects individually is ASCII, so stepping by characters and stepping by
  bytes visit the same positions.  Go compares strings bytewise; on UTF-8 text
  this is the order of the code-point sequences, which is what `strLess` uses.
* A Go `map[string][]string` is an association list.  Its keys are pairwise
  distinct (`Values.WF`), every entry holds a non-nil slice, and the order of
  the entries stands for the order in which one particular `range` statement
  happens to visit the map, which Go leaves unspecified.
* The parts of the standard library and of OpenTelemetry that the program calls
  are transcribed next to the program: `strconv.Quote`, `fmt.Sprintf` without
  operands, `trace.TraceIDFromHex`, `trace.SpanIDFromHex`, the SDK tracer.
  What depends on the outside world is an explicit input: the clock reading,
  the host name, the Unicode printability table, the identifier generator.
-/

namespace Devnull

/-! ## Go values -/

/-- Go `map[string][]string` (`url.Values`, `http.Header`). -/
abbrev Values := List (String × List String)

/-- Well-formedness of a map: no key occurs twice. -/
def Values.WF (m : Values) : Prop := (m.map Prod.fst).Nodup

instance (m : Values) : Decidable m.WF := by unfold Values.WF; infer_instance

/-- The keys in the order a `for k := range m` visits them. -/
def Values.rangeKeys (m : Values) : List String := m.map Prod.fst

/-- The expression `m[k]` used as a value: the stored slice, or the nil slice
(which has no elements) when the key is missing. -/
def Values.index (m : Values) (k : String) : List String := (m.lookup k).getD []

/-- The expression `s[0]` on the result of a map lookup; `none` is the run-time
panic "index out of range" on a slice without elements. -/
def index0 : Option (List String) → Option String
  | some (x :: _) => some x
  | _ => none

/-- Go's `<` on strings. -/
def strLess (a b : String) : Prop := a.toList < b.toList

/-- The order `sort.Strings` sorts by: `a` may precede `b` unless `b < a`. -/
def strLE (a b : String) : Prop := a.toList ≤ b.toList

instance : DecidableRel strLess := fun a b => inferInstanceAs (Decidable (a.toList < b.toList))

instance : DecidableRel strLE := fun a b => inferInstanceAs (Decidable (a.toList ≤ b.toList))

/-- `sort.Strings`: the argument rearranged into ascending order. -/
def sortStrings (keys : List String) : List String := keys.insertionSort strLE

/-! ## encoding/hex and the OpenTelemetry trace API -/

/-- `fromHexChar` of `encoding/hex`. -/
def fromHexChar (c : Char) : Option Nat :=
  if '0' ≤ c ∧ c ≤ '9' then some (c.toNat - '0'.toNat)
  else if 'a' ≤ c ∧ c ≤ 'f' then some (c.toNat - 'a'.toNat + 10)
  else if 'A' ≤ c ∧ c ≤ 'F' then some (c.toNat - 'A'.toNat + 10)
  else none

/-- `hex.DecodeString`: two digits per byte; `none` for an invalid digit or an
odd number of digits. -/
def hexDecodeString : List Char → Option (List Nat)
  | [] => some []
  | [_] => none
  | a :: b :: rest =>
    match fromHexChar a, fromHexChar b, hexDecodeString rest with
    | some x, some y, some bytes => some ((x * 16 + y) :: bytes)
    | _, _, _ => none

/-- The digits `hextable` of `encoding/hex`. -/
def hextable (n : Nat) : Char := "0123456789abcdef".toList.getD n '0'

/-- `hex.EncodeToString`, which `TraceID.String` and `SpanID.String` return. -/
def hexEncodeToString (bytes : List Nat) : String :=
  String.mk (bytes.flatMap (fun b => [hextable (b / 16), hextable (b % 16)]))

/-- `decodeHex` of `go.opentelemetry.io/otel/trace`: only `0-9a-f` are
accepted, then the digits are decoded. -/
def decodeHex (h : String) : Option (List Nat) :=
  if h.toList.all (fun r => ('a' ≤ r ∧ r ≤ 'f') ∨ ('0' ≤ r ∧ r ≤ '9')) then
    hexDecodeString h.toList
  else none

/-- Go's builtin `copy(dst, src)` as the new contents of `dst`. -/
def copyBytes (dst src : List Nat) : List Nat :=
  src.take dst.length ++ dst.drop src.length

/-- `trace.TraceID`, a `[16]byte`. -/
abbrev TraceID := List Nat

/-- `trace.SpanID`, an `[8]byte`. -/
abbrev SpanID := List Nat

/-- The zero value of `TraceID`. -/
def nilTraceID : TraceID := List.replicate 16 0

/-- The zero value of `SpanID`. -/
def nilSpanID : SpanID := List.replicate 8 0

/-- `TraceID.IsValid`: not all-zero. -/
def TraceID.IsValid (t : TraceID) : Bool := t != nilTraceID

/-- `SpanID.IsValid`: not all-zero. -/
def SpanID.IsValid (s : SpanID) : Bool := s != nilSpanID

/-- The errors of the identifier parsers. -/
inductive IDError where
  | errInvalidHexID
  | errInvalidTraceIDLength
  | errNilTraceID
  | errInvalidSpanIDLength
  | errNilSpanID
  deriving DecidableEq, Repr

/-- `trace.TraceIDFromHex`: the Go result pair `(TraceID, error)`. -/
def TraceIDFromHex (h : String) : TraceID × Option IDError :=
  let t := nilTraceID
  if h.utf8ByteSize ≠ 32 then (t, some .errInvalidTraceIDLength)
  else
    match decodeHex h with
    | none => (t, some .errInvalidHexID)
    | some decoded =>
      let t := copyBytes t decoded
      if !TraceID.IsValid t then (t, some .errNilTraceID) else (t, none)

/-- `trace.SpanIDFromHex`: the Go result pair `(SpanID, error)`. -/
def SpanIDFromHex (h : String) : SpanID × Option IDError :=
  let s := nilSpanID
  if h.utf8ByteSize ≠ 16 then (s, some .errInvalidSpanIDLength)
  else
    match decodeHex h with
    | none => (s, some .errInvalidHexID)
    | some decoded =>
      let s := copyBytes s decoded
      if !SpanID.IsValid s then (s, some .errNilSpanID) else (s, none)

/-- `trace.FlagsSampled`. -/
def FlagsSampled : Nat := 1

/-- `trace.SpanContext` as far as the program sets it (`TraceState` and
`Remote` keep their zero values and are left out). -/
structure SpanContext where
  traceID : TraceID
  spanID : SpanID
  traceFlags : Nat
  deriving DecidableEq, Repr

/-- The zero `SpanContext{}`. -/
def emptySpanContext : SpanContext := ⟨nilTraceID, nilSpanID, 0⟩

/-- `TraceFlags.IsSampled`: the sampled bit is set. -/
def SpanContext.IsSampled (sc : SpanContext) : Bool := sc.traceFlags % 2 == 1

/-- `SpanContext.IsValid`: both identifiers are valid. -/
def SpanContext.IsValid (sc : SpanContext) : Bool :=
  TraceID.IsValid sc.traceID && SpanID.IsValid sc.spanID

/-- `trace.NewSpanContext(trace.SpanContextConfig{...})`. -/
def NewSpanContext (traceID : TraceID) (spanID : SpanID) (traceFlags : Nat) : SpanContext :=
  ⟨traceID, spanID, traceFlags⟩

/-- A `context.Context` as far as tracing reads it: the span context of the
span stored under the current-span key, if one is stored. -/
structure Context where
  span : Option SpanContext
  deriving DecidableEq, Repr

/-- A context in which no span is stored (`context.Background()`, or the
context of a request as the HTTP server creates it). -/
def Context.background : Context := ⟨none⟩

/-- `trace.ContextWithSpanContext(parent, sc)`. -/
def ContextWithSpanContext (_parent : Context) (sc : SpanContext) : Context := ⟨some sc⟩

/-- `trace.SpanContextFromContext(ctx)`: the span context of the stored span,
the zero span context when none is stored. -/
def SpanContextFromContext (ctx : Context) : SpanContext := ctx.span.getD emptySpanContext

/-! ## Requests and the Tracing middleware -/

/-- The parts of `*http.Request` the program reads. -/
structure Request where
  /-- `r.Method`. -/
  Method : String
  /-- `r.URL.Path`. -/
  Path : String
  /-- `r.URL.Query()`. -/
  Query : Values
  /-- `r.Header`. -/
  Header : Values
  /-- `r.Body`: `none` is nil, `some s` a body value that `%q` prints as `s`. -/
  Body : Option String
  /-- `r.Context()`. -/
  ctx : Context
  deriving DecidableEq, Repr

/-- `r.WithContext(ctx)`. -/
def Request.WithContext (r : Request) (ctx : Context) : Request := { r with ctx := ctx }

/-- `Tracing(next)` applied to a request.  The response writer is handed on
untouched and is not represented.  `none` is a run-time panic of the
middleware itself. -/
def Tracing {ρ : Type} (next : Request → ρ) (r : Request) : Option ρ :=
  if r.Header.lookup "X-B3-Traceid" ≠ none ∧ r.Header.lookup "X-B3-Spanid" ≠ none
      ∧ r.Header.lookup "X-B3-Sampled" ≠ none then
    match index0 (r.Header.lookup "X-B3-Traceid"), index0 (r.Header.lookup "X-B3-Spanid"),
        index0 (r.Header.lookup "X-B3-Sampled") with
    | some t, some s, some f =>
      let traceID := (TraceIDFromHex t).1
      let spanID := (SpanIDFromHex s).1
      let traceFlags := if f = "1" then FlagsSampled else 0
      let spanContext := NewSpanContext traceID spanID traceFlags
      let ctx := ContextWithSpanContext r.ctx spanContext
      some (next (r.WithContext ctx))
    | _, _, _ => none
  else
    some (next r)

/-- The context `Tracing` hands to the next handler. -/
def tracedContext (r : Request) : Option Context := Tracing (fun r' => r'.ctx) r

/-! ## strconv.Quote -/

/-- The digits `lowerhex` of `strconv`. -/
def lowerhex (n : Nat) : Char := "0123456789abcdef".toList.getD n '0'

/-- `strconv.IsPrint`.  Latin-1 is decided by the explicit ranges of the Go
function; above it Go consults generated Unicode tables, which are the input
`table`. -/
def IsPrint (table : Char → Bool) (r : Char) : Bool :=
  if r.toNat ≤ 0xFF then
    if 0x20 ≤ r.toNat ∧ r.toNat ≤ 0x7E then true
    else if 0xA1 ≤ r.toNat ∧ r.toNat ≤ 0xFF then r.toNat != 0xAD
    else false
  else table r

/-- `appendEscapedRune` of `strconv` with `quote = '"'`, `ASCIIonly = false`,
`graphicOnly = false`: the text appended for one rune. -/
def appendEscapedRune (table : Char → Bool) (r : Char) : List Char :=
  if r = '"' ∨ r = '\\' then ['\\', r]
  else if IsPrint table r then [r]
  else if r.toNat = 7 then ['\\', 'a']
  else if r.toNat = 8 then ['\\', 'b']
  else if r.toNat = 12 then ['\\', 'f']
  else if r = '\n' then ['\\', 'n']
  else if r = '\r' then ['\\', 'r']
  else if r = '\t' then ['\\', 't']
  else if r.toNat = 11 then ['\\', 'v']
  else if r.toNat < 0x20 ∨ r.toNat = 0x7F then
    ['\\', 'x', lowerhex (r.toNat / 16), lowerhex (r.toNat % 16)]
  else if r.toNat < 0x10000 then
    ['\\', 'u'] ++ [12, 8, 4, 0].map (fun s => lowerhex (r.toNat / 2 ^ s % 16))
  else
    ['\\', 'U'] ++ [28, 24, 20, 16, 12, 8, 4, 0].map (fun s => lowerhex (r.toNat / 2 ^ s % 16))

/-- `strconv.Quote(s)`, which is what the verb `%q` prints for a string. -/
def Quote (table : Char → Bool) (s : String) : String :=
  String.mk ('"' :: (s.toList.flatMap (appendEscapedRune table)) ++ ['"'])

/-- What `%q` prints for a `[]string`: the quoted elements, separated by
blanks, between square brackets. -/
def quoteSlice (table : Char → Bool) (vs : List String) : String :=
  "[" ++ " ".intercalate (vs.map (Quote table)) ++ "]"

/-! ## fmt.Sprintf without operands

`doPrintf` of package `fmt`, specialised to an empty operand list `a`: the
argument counter stays 0, no verb finds an operand, and flags, width and
precision only move the reading position. -/

/-- `tooLarge` of package `fmt`. -/
def tooLarge (x : Nat) : Bool := x > 1000000

/-- The loop of `parsenum`: `cs` is the text from position `newi` on. -/
def parsenumLoop (endi : Nat) : List Char → Nat → Nat → Bool → Nat × Bool × Nat
  | [], newi, num, isnum => (num, isnum, newi)
  | c :: cs, newi, num, isnum =>
    if newi < endi ∧ '0' ≤ c ∧ c ≤ '9' then
      if tooLarge num then (0, false, endi)
      else parsenumLoop endi cs (newi + 1) (num * 10 + (c.toNat - '0'.toNat)) true
    else (num, isnum, newi)

/-- `parsenum(s, start, end)`: the number read, whether one was read, and the
position after it. -/
def parsenum (s : List Char) (start endi : Nat) : Nat × Bool × Nat :=
  if start ≥ endi then (0, false, endi) else parsenumLoop endi (s.drop start) start 0 false

/-- The search for the closing bracket in `parseArgNumber`: `cs` is the text
from position `i` on; the result is `(wid, ok)`. -/
def findBracket (format : List Char) : List Char → Nat → Nat × Bool
  | [], _ => (1, false)
  | c :: cs, i =>
    if c = ']' then
      let (_, ok, newi) := parsenum format 1 i
      if !ok ∨ newi ≠ i then (i + 1, false) else (i + 1, true)
    else findBracket format cs (i + 1)

/-- `parseArgNumber(format)`, without the index value, which an empty operand
list never uses: the width of the bracketed text and whether it is a number. -/
def parseArgNumber (format : List Char) : Nat × Bool :=
  if (String.mk format).utf8ByteSize < 3 then (1, false)
  else findBracket format (format.drop 1) 1

/-- `argNumber(argNum, format, i, 0)`: the new position, whether an index was
found, and whether `goodArgNum` stays set.  No index is below `numArgs = 0`. -/
def argNumber (format : List Char) (i : Nat) : Nat × Bool × Bool :=
  if format.length ≤ i ∨ format.getD i ' ' ≠ '[' then (i, false, true)
  else
    let (wid, ok) := parseArgNumber (format.drop i)
    (i + wid, ok, false)

/-- The flag loop `simpleFormat`: flags are skipped; with no operand left the
fast path for simple verbs is never taken. -/
def skipFlags : List Char → Nat → Nat
  | [], i => i
  | c :: cs, i => if c = '#' ∨ c = '0' ∨ c = '+' ∨ c = '-' ∨ c = ' ' then skipFlags cs (i + 1) else i

/-- One pass of the `formatLoop` body after a `%` at position `i - 1`: the text
written and the position at which the loop continues.  The test for a precision
is `i+1 <= end`, as in the Go releases of the time the program was written;
later releases test `i+1 < end`, which changes the result only for a format
that ends in the two characters `%.`. -/
def doVerb (format : List Char) (i : Nat) : List Char × Nat :=
  let endi := format.length
  let i := skipFlags (format.drop i) i
  let (i, afterIndex, good0) := argNumber format i
  -- width
  let (out1, i, afterIndex, good1) :=
    if i < endi ∧ format.getD i ' ' = '*' then
      ("%!(BADWIDTH)".toList, i + 1, false, good0)
    else
      let (_, widPresent, i) := parsenum format i endi
      ([], i, afterIndex, good0 && !(afterIndex && widPresent))
  -- precision
  let (out2, i, afterIndex, good2) :=
    if i + 1 ≤ endi ∧ format.getD i ' ' = '.' then
      let i := i + 1
      let good := good1 && !afterIndex
      let (i, afterIndex, good') := argNumber format i
      if i < endi ∧ format.getD i ' ' = '*' then
        ("%!(BADPREC)".toList, i + 1, false, good && good')
      else
        let (_, _, i) := parsenum format i endi
        ([], i, afterIndex, good && good')
    else ([], i, afterIndex, good1)
  let (i, _, good3) :=
    if !afterIndex then
      let (i, afterIndex, good') := argNumber format i
      (i, afterIndex, good2 && good')
    else (i, afterIndex, good2)
  if i ≥ endi then (out1 ++ out2 ++ "%!(NOVERB)".toList, endi)
  else
    let verb := format.getD i ' '
    let i := i + 1
    if verb = '%' then (out1 ++ out2 ++ ['%'], i)
    else if !good3 then (out1 ++ out2 ++ "%!".toList ++ [verb] ++ "(BADINDEX)".toList, i)
    else (out1 ++ out2 ++ "%!".toList ++ [verb] ++ "(MISSING)".toList, i)

/-- The `formatLoop` of `doPrintf`: `cs` is the text from position `i` on, and
`skip` counts the characters of it that the last verb has already consumed. -/
def formatLoop (format : List Char) : List Char → Nat → Nat → List Char
  | [], _, _ => []
  | _ :: cs, i, skip + 1 => formatLoop format cs (i + 1) skip
  | c :: cs, i, 0 =>
    if c ≠ '%' then c :: formatLoop format cs (i + 1) 0
    else
      let (out, newi) := doVerb format (i + 1)
      out ++ formatLoop format cs (i + 1) (newi - (i + 1))

/-- `fmt.Sprintf(format)` with no operands. -/
def Sprintf0 (format : String) : String := String.mk (formatLoop format.toList format.toList 0 0)

/-! ## The tracer -/

/-- `trace.SpanKind`. -/
inductive SpanKind where
  | unspecified
  | internal
  | server
  | client
  | producer
  | consumer
  deriving DecidableEq, Repr

/-- A span as `tr.Start` returns it: its name and kind, the span context found
in the context it was started from, and its own span context. -/
structure Span where
  name : String
  kind : SpanKind
  parent : SpanContext
  sc : SpanContext
  deriving DecidableEq, Repr

/-- A `trace.Tracer`, given by the span context it assigns to a new span.  The
first argument is the number of spans the tracer has started before; it stands
for the state of whatever source of identifiers the tracer draws from.  The
second is the span context found in the context the span is started from. -/
structure Tracer where
  newSpanContext : Nat → SpanContext → SpanContext

/-- The call `tr.Start(ctx, name, trace.WithSpanKind(kind))`: the new span, and
the context in which it is the current span. -/
def Tracer.Start (tr : Tracer) (n : Nat) (ctx : Context) (name : String) (kind : SpanKind) :
    Context × Span :=
  let psc := SpanContextFromContext ctx
  let sc := tr.newSpanContext n psc
  (⟨some sc⟩, ⟨name, kind, psc, sc⟩)

/-- The identifier generator of the SDK: the identifiers of the `n`-th draw. -/
abbrev IDGenerator := Nat → TraceID × SpanID

/-- The generator never yields the all-zero trace identifier. -/
def IDGenerator.Valid (gen : IDGenerator) : Prop := ∀ n, TraceID.IsValid (gen n).1 = true

/-- The sampler the SDK provider uses when none is configured,
`ParentBased(AlwaysSample())`, for a parent that is not remote: a valid parent
decides, a root span is sampled. -/
def shouldSample (psc : SpanContext) : Bool :=
  if psc.IsValid then psc.IsSampled else true

/-- The SDK tracer (`newSpan`): a valid parent trace identifier is kept,
otherwise new identifiers are drawn; the span identifier is always new; the
sampled bit is set or cleared as the sampler decides. -/
def sdkTracer (gen : IDGenerator) : Tracer where
  newSpanContext := fun n psc =>
    let ids : TraceID × SpanID :=
      if !TraceID.IsValid psc.traceID then gen n else (psc.traceID, (gen n).2)
    let traceFlags :=
      if shouldSample psc then (if psc.traceFlags % 2 = 1 then psc.traceFlags else psc.traceFlags + 1)
      else psc.traceFlags - psc.traceFlags % 2
    NewSpanContext ids.1 ids.2 traceFlags

/-- The tracer in use when no provider was installed (`main` ignores the
error of `initTracer`): a non-recording span that repeats the span context of
the context it is started from. -/
def noopTracer : Tracer where
  newSpanContext := fun _ psc => psc

/-! ## The devnuller handler -/

/-- What one invocation of the handler does, in the order it does it. -/
inductive Effect where
  /-- `tr.Start` returned this span. -/
  | spanStart (s : Span)
  /-- `resp.WriteString(s)`. -/
  | write (s : String)
  /-- The bytes `fmt.Fprintf` wrote to the `http.ResponseWriter`. -/
  | respond (s : String)
  /-- The message `log.Printf` handed to the standard logger. -/
  | logPrintf (s : String)
  /-- `End()` was called on this span. -/
  | spanEnd (s : Span)
  deriving DecidableEq, Repr

/-- The state of a running invocation: the effects so far, the contents of the
buffer `resp`, and the deferred calls, the most recent first. -/
structure Frame where
  trace : List Effect
  resp : String
  deferred : List Effect

/-- Record an effect. -/
def Frame.emit (f : Frame) (e : Effect) : Frame := { f with trace := f.trace ++ [e] }

/-- The statement `defer e`. -/
def Frame.deferCall (f : Frame) (e : Effect) : Frame := { f with deferred := e :: f.deferred }

/-- The call `resp.WriteString(s)`. -/
def Frame.WriteString (f : Frame) (s : String) : Frame :=
  { f with trace := f.trace ++ [Effect.write s], resp := f.resp ++ s }

/-- Function return: the deferred calls run, the most recent first. -/
def Frame.ret (f : Frame) : List Effect := f.trace ++ f.deferred

/-- The separator line. -/
def separator : String := "---------\n"

/-- The text of `fmt.Sprintf("Query field %q, Value %q\n", v, values)`. -/
def queryLine (table : Char → Bool) (v : String) (values : List String) : String :=
  "Query field " ++ Quote table v ++ ", Value " ++ quoteSlice table values ++ "\n"

/-- The text of `fmt.Sprintf("Header field %q, Value %q\n", v, values)`. -/
def headerLine (table : Char → Bool) (v : String) (values : List String) : String :=
  "Header field " ++ Quote table v ++ ", Value " ++ quoteSlice table values ++ "\n"

/-- What `NewRouter` fixes for the handler and what the machine provides: the
tracer, the host name, the Unicode printability table of `strconv`. -/
structure Env where
  tr : Tracer
  hostname : String
  table : Char → Bool

/-- The body of the closure `devnuller` of `NewRouter`, up to its last
statement.  `now` is the text `%s` prints for `time.Now()`, `tick` the number of
spans the tracer has started before. -/
def devnullerBody (env : Env) (now : String) (tick : Nat) (r : Request) : Frame :=
  let f : Frame := ⟨[], "", []⟩
  let (ctx2, span) := env.tr.Start tick r.ctx "foo" SpanKind.server
  let f := f.emit (Effect.spanStart span)
  let f := f.deferCall (Effect.spanEnd span)
  let f := f.WriteString ("Timestamp: " ++ now ++ "\n")
  let f := f.WriteString "---------\n"
  let f := f.WriteString ("Hello, you've requested: " ++ r.Path ++ " on Pod: " ++ env.hostname ++ " \n")
  let f := f.WriteString "---------\n"
  let f := f.WriteString ("The Methode " ++ Quote env.table r.Method ++ "\n")
  let f := f.WriteString "---------\n"
  let keys : List String := []
  let (_, span2) := env.tr.Start (tick + 1) ctx2 "foo2" SpanKind.server
  let f := f.emit (Effect.spanStart span2)
  let f := f.deferCall (Effect.spanEnd span2)
  let keys := r.Query.rangeKeys.foldl (fun keys k => keys ++ [k]) keys
  let keys := sortStrings keys
  let f := keys.foldl (fun f v => f.WriteString (queryLine env.table v (r.Query.index v))) f
  let f := f.WriteString "---------\n"
  let headers : List String := []
  let headers := r.Header.rangeKeys.foldl (fun headers h => headers ++ [h]) headers
  let headers := sortStrings headers
  let f := headers.foldl (fun f v => f.WriteString (headerLine env.table v (r.Header.index v))) f
  let f := f.WriteString "---------\n"
  let f :=
    match r.Body with
    | none => f.WriteString (Sprintf0 "There's no body")
    | some body => f.WriteString ("The Body is " ++ body ++ "\n")
  let f := f.emit (Effect.respond (Sprintf0 f.resp))
  let f := f.emit (Effect.logPrintf (Sprintf0 f.resp))
  f

/-- The closure `devnuller` of `NewRouter`: everything one invocation does, in
order, the deferred calls included. -/
def devnuller (env : Env) (now : String) (tick : Nat) (r : Request) : List Effect :=
  (devnullerBody env now tick r).ret

/-- The rendered report: the contents of the buffer `resp` at the end of the
handler, `resp.String()`. -/
def report (env : Env) (now : String) (tick : Nat) (r : Request) : String :=
  (devnullerBody env now tick r).resp

/-- The strings written to the buffer by an invocation, in order. -/
def writes (trace : List Effect) : List String :=
  trace.filterMap (fun e => match e with | Effect.write s => some s | _ => none)

/-- The texts written to the response by an invocation. -/
def responses (trace : List Effect) : List String :=
  trace.filterMap (fun e => match e with | Effect.respond s => some s | _ => none)

/-- The messages handed to the logger by an invocation. -/
def logged (trace : List Effect) : List String :=
  trace.filterMap (fun e => match e with | Effect.logPrintf s => some s | _ => none)

/-- The spans started by an invocation, in order. -/
def started (trace : List Effect) : List Span :=
  trace.filterMap (fun e => match e with | Effect.spanStart s => some s | _ => none)

/-- The spans ended by an invocation, in order. -/
def ended (trace : List Effect) : List Span :=
  trace.filterMap (fun e => match e with | Effect.spanEnd s => some s | _ => none)

/-! ## Config.Run -/

/-- The `Server` section of `Config` (timeouts in the unit the file gives). -/
structure Config where
  Host : String
  Port : String
  TimeoutServer : Nat
  TimeoutWrite : Nat
  TimeoutRead : Nat
  TimeoutIdle : Nat

/-- The sentinel `http.ErrServerClosed`. -/
def ErrServerClosed : String := "http: Server closed"

/-- What the outside world does during one `Run`. -/
structure World where
  /-- The result of `os.Hostname()`. -/
  hostname : Except String String
  /-- The error with which `ListenAndServe` returns before an interrupt is
  delivered; `none` when the server is serving until `Shutdown` is called. -/
  listenErr : Option String
  /-- The signal received from `runChan`, as `%+v` prints it. -/
  interrupt : String
  /-- The error `server.Shutdown(ctx)` returns; `none` is nil. -/
  shutdownErr : Option String

/-- How `Run` ends: it returns to `main`, or the process is terminated by
`os.Exit` inside `log.Fatal` or `log.Fatalf`. -/
inductive Outcome where
  | returned
  | exited (status : Nat)
  deriving DecidableEq, Repr

/-- The message of the `log.Fatalf` call after a failed `Shutdown`. -/
def ungracefulMessage (err : String) : String :=
  "Server was unable to gracefully shutdown due to err: " ++ err

/-- `Config.Run`: the messages logged, in order, and how the call ends.  The
goroutine running `ListenAndServe` is interleaved at the point where the main
flow blocks on `runChan`. -/
def Run (config : Config) (w : World) : List String × Outcome :=
  match w.hostname with
  | Except.error err => ([err], Outcome.exited 1)
  | Except.ok _hostname =>
    let addr := config.Host ++ ":" ++ config.Port
    let log := ["Server is starting on " ++ addr ++ "\n"]
    let listenFatal : Option String :=
      match w.listenErr with
      | none => none
      | some err => if err = ErrServerClosed then none else some err
    match listenFatal with
    | some err => (log ++ ["Server failed to start due to err: " ++ err], Outcome.exited 1)
    | none =>
      let log := log ++ ["Server is shutting down due to " ++ w.interrupt ++ "\n"]
      match w.shutdownErr with
      | some err => (log ++ [ungracefulMessage err], Outcome.exited 1)
      | none => (log, Outcome.returned)

/-! ## The layout of the report, as the specification words it -/

/-- The timestamp line. -/
def timestampLine (now : String) : String := "Timestamp: " ++ now ++ "\n"

/-- The greeting line, with the requested path and the host identifier. -/
def greetingLine (env : Env) (r : Request) : String :=
  "Hello, you've requested: " ++ r.Path ++ " on Pod: " ++ env.hostname ++ " \n"

/-- The method line. -/
def methodLine (env : Env) (r : Request) : String :=
  "The Methode " ++ Quote env.table r.Method ++ "\n"

/-- The query lines: one per key, in ascending key order, each with the values
stored under its key. -/
def queryLines (env : Env) (r : Request) : List String :=
  (sortStrings r.Query.rangeKeys).map (fun k => queryLine env.table k (r.Query.index k))

/-- The header lines: one per header name, in ascending order, each with the
values stored under its name. -/
def headerLines (env : Env) (r : Request) : List String :=
  (sortStrings r.Header.rangeKeys).map (fun k => headerLine env.table k (r.Header.index k))

/-- The body-presence line. -/
def bodyLine (r : Request) : String :=
  match r.Body with
  | none => "There's no body"
  | some body => "The Body is " ++ body ++ "\n"

/-- The pieces of the report in the order the specification lists them. -/
def layout (env : Env) (now : String) (r : Request) : List String :=
  [timestampLine now, separator, greetingLine env r, separator, methodLine env r, separator]
    ++ queryLines env r ++ [separator] ++ headerLines env r ++ [separator, bodyLine r]

/-! ## Sample inputs -/

/-- The request of the scenario `/foo?b=2&a=1` with the three B3 headers. -/
def scenarioRequest : Request :=
  ⟨"GET", "/foo", [("b", ["2"]), ("a", ["1"])],
    [("X-B3-Traceid", ["11111111111111111111111111111111"]),
     ("X-B3-Spanid", ["2222222222222222"]), ("X-B3-Sampled", ["1"])],
    none, Context.background⟩

/-- The scenario request with its maps visited in another order. -/
def scenarioRequestReordered : Request :=
  ⟨"GET", "/foo", [("a", ["1"]), ("b", ["2"])],
    [("X-B3-Sampled", ["1"]), ("X-B3-Traceid", ["11111111111111111111111111111111"]),
     ("X-B3-Spanid", ["2222222222222222"])],
    none, Context.background⟩

/-- A request whose trace identifier is no hexadecimal number. -/
def malformedRequest : Request :=
  ⟨"GET", "/foo", [],
    [("X-B3-Traceid", ["zz"]), ("X-B3-Spanid", ["2222222222222222"]), ("X-B3-Sampled", ["1"])],
    none, Context.background⟩

/-- The same request without the trace headers. -/
def bareRequest : Request := ⟨"GET", "/foo", [], [], none, Context.background⟩

/-- A request for the path `/%d` (sent as `GET /%25d`), as the HTTP server
hands it over: a header, and the empty body value, which `%q` prints as a pair
of braces. -/
def percentRequest : Request :=
  ⟨"GET", "/%d", [], [("Accept", ["*/*"])], some "\x7b\x7d", Context.background⟩

/-- A generator that yields the bytes `n + 1` at the `n`-th draw. -/
def sampleGen : IDGenerator := fun n => (List.replicate 16 (n + 1), List.replicate 8 (n + 1))

/-- An environment with the SDK tracer. -/
def sampleEnv : Env := ⟨sdkTracer sampleGen, "pod-1", fun _ => true⟩

/-- A configuration. -/
def sampleConfig : Config := ⟨"0.0.0.0", "8080", 30, 15, 15, 60⟩

/-- A run in which the shutdown deadline elapses with a request in flight. -/
def timedOutWorld : World :=
  ⟨Except.ok "pod-1", none, "interrupt", some "context deadline exceeded"⟩

/-- The kind of an effect, without what it carries. -/
inductive EffectKind where
  | spanStart
  | write
  | respond
  | logPrintf
  | spanEnd
  deriving DecidableEq, Repr

/-- The kind of an effect. -/
def Effect.kindOf : Effect → EffectKind
  | Effect.spanStart _ => EffectKind.spanStart
  | Effect.write _ => EffectKind.write
  | Effect.respond _ => EffectKind.respond
  | Effect.logPrintf _ => EffectKind.logPrintf
  | Effect.spanEnd _ => EffectKind.spanEnd

/-- What `%q` prints for `http.NoBody`, the value the HTTP server stores in
`r.Body` when a request arrives without a body: a pair of braces. -/
def NoBody : String := "\x7b\x7d"

/-- A request `GET /foo?a=1&b=2&a=3&b=`, as the HTTP server hands it over: two
values under each key, in the order of the query string. -/
def multiValueRequest : Request :=
  ⟨"GET", "/foo", [("b", ["2", ""]), ("a", ["1", "3"])], [("Accept", ["text/html", "*/*"])],
    some NoBody, Context.background⟩

/-- A request without a body for a path with line breaks in it (sent as
`GET /a%0A---------%0Ab`), as the HTTP server hands it over. -/
def newlineRequest : Request :=
  ⟨"GET", "/a\n---------\nb", [], [], some NoBody, Context.background⟩

/-- The lines of a text: the pieces between its line breaks
(`strings.Split(s, "\n")`). -/
def splitLines : List Char → List (List Char)
  | [] => [[]]
  | c :: cs =>
    if c = '\n' then [] :: splitLines cs
    else
      match splitLines cs with
      | [] => [[c]]
      | l :: ls => (c :: l) :: ls

/-- The lines of a string. -/
def textLines (s : String) : List String := (splitLines s.toList).map String.mk

/-- A value that `strconv.Quote` has nothing to escape in: printable ASCII
without the double quote and the backslash. -/
def Plain (s : String) : Prop :=
  ∀ c ∈ s.toList, 0x20 ≤ c.toNat ∧ c.toNat ≤ 0x7E ∧ c ≠ '"' ∧ c ≠ '\\'

/-- The text of a query line, without its line break. -/
def queryText (table : Char → Bool) (k : String) (vs : List String) : String :=
  "Query field " ++ Quote table k ++ ", Value [" ++ " ".intercalate (vs.map (Quote table)) ++ "]"

/-- The text of a header line, without its line break. -/
def headerText (table : Char → Bool) (k : String) (vs : List String) : String :=
  "Header field " ++ Quote table k ++ ", Value [" ++ " ".intercalate (vs.map (Quote table)) ++ "]"

/-- The texts of the lines of the report before the body line. -/
def reportTexts (env : Env) (now : String) (r : Request) : List String :=
  ["Timestamp: " ++ now, "---------",
    "Hello, you've requested: " ++ r.Path ++ " on Pod: " ++ env.hostname ++ " ", "---------",
    "The Methode " ++ Quote env.table r.Method, "---------"]
    ++ (sortStrings r.Query.rangeKeys).map (fun k => queryText env.table k (r.Query.index k))
    ++ ["---------"]
    ++ (sortStrings r.Header.rangeKeys).map (fun k => headerText env.table k (r.Header.index k))
    ++ ["---------"]

/-- The lines the body line contributes: the no-body text, which has no line
break after it, or the text naming the body and the empty rest after its line
break. -/
def bodyTexts (r : Request) : List String :=
  match r.Body with
  | none => ["There's no body"]
  | some body => ["The Body is " ++ body, ""]

/-! ## The order of `sort.Strings` is a total order -/

instance : IsTotal String strLE := ⟨fun a b => le_total a.toList b.toList⟩

instance : IsTrans String strLE := ⟨fun _ _ _ h₁ h₂ => @le_trans (List Char) _ _ _ _ h₁ h₂⟩

instance : IsAntisymm String strLE :=
  ⟨fun _ _ h₁ h₂ => String.ext (@le_antisymm (List Char) _ _ _ h₁ h₂)⟩

/-! # Theorems -/
/-! ## Tracing: what reaches the next handler -/

/-- With a first value under each of the three headers, `Tracing` calls the
next handler with a context carrying the span context built from them. -/
theorem Tracing_present {ρ : Type} (next : Request → ρ) (r : Request)
    (t s f : String) (ts ss fs : List String)
    (ht : r.Header.lookup "X-B3-Traceid" = some (t :: ts))
    (hs : r.Header.lookup "X-B3-Spanid" = some (s :: ss))
    (hf : r.Header.lookup "X-B3-Sampled" = some (f :: fs)) :
    Tracing next r = some (next (r.WithContext (ContextWithSpanContext r.ctx
      (NewSpanContext (TraceIDFromHex t).1 (SpanIDFromHex s).1
        (if f = "1" then FlagsSampled else 0))))) := by
  simp [Tracing, ht, hs, hf, index0]

/-- A trace identifier that fails to parse is returned as the zero value. -/
theorem TraceIDFromHex_error (h : String) (herr : (TraceIDFromHex h).2 ≠ none) :
    (TraceIDFromHex h).1 = nilTraceID := by
  unfold TraceIDFromHex at *
  by_cases hl : h.utf8ByteSize ≠ 32
  · simp [hl]
  · simp only [hl, if_false] at herr ⊢
    cases hd : decodeHex h with
    | none => simp
    | some d =>
      simp only [hd] at herr ⊢
      by_cases hv : TraceID.IsValid (copyBytes nilTraceID d) = true
      · simp [hv] at herr
      · simp only [hv]
        simpa [TraceID.IsValid] using hv

/-- A span identifier that fails to parse is returned as the zero value. -/
theorem SpanIDFromHex_error (h : String) (herr : (SpanIDFromHex h).2 ≠ none) :
    (SpanIDFromHex h).1 = nilSpanID := by
  unfold SpanIDFromHex at *
  by_cases hl : h.utf8ByteSize ≠ 16
  · simp [hl]
  · simp only [hl, if_false] at herr ⊢
    cases hd : decodeHex h with
    | none => simp
    | some d =>
      simp only [hd] at herr ⊢
      by_cases hv : SpanID.IsValid (copyBytes nilSpanID d) = true
      · simp [hv] at herr
      · simp only [hv]
        simpa [SpanID.IsValid] using hv

/-- The sampled bit of the flags `Tracing` builds is set exactly for "1". -/
theorem sampled_iff (tid : TraceID) (sid : SpanID) (f : String) :
    (NewSpanContext tid sid (if f = "1" then FlagsSampled else 0)).IsSampled = true ↔ f = "1" := by
  by_cases h : f = "1" <;> simp [h, NewSpanContext, SpanContext.IsSampled, FlagsSampled]

/-! ## Hexadecimal identifiers -/

/-- The digits that `decodeHex` accepts. -/
theorem hexdigit_mem (c : Char) (h : ('a' ≤ c ∧ c ≤ 'f') ∨ ('0' ≤ c ∧ c ≤ '9')) :
    c ∈ "0123456789abcdef".toList := by
  have hc : Char.ofNat c.toNat = c := Char.ofNat_toNat c
  have hb : (97 ≤ c.toNat ∧ c.toNat ≤ 102) ∨ (48 ≤ c.toNat ∧ c.toNat ≤ 57) := by
    rcases h with ⟨h1, h2⟩ | ⟨h1, h2⟩
    · left; exact ⟨h1, h2⟩
    · right; exact ⟨h1, h2⟩
  generalize c.toNat = n at hc hb
  subst hc
  rcases hb with ⟨h1, h2⟩ | ⟨h1, h2⟩ <;> interval_cases n <;> decide

/-- An accepted digit has a value below 16, is what `hextable` prints for that
value, and takes one byte. -/
theorem fromHexChar_hextable (c : Char) (h : ('a' ≤ c ∧ c ≤ 'f') ∨ ('0' ≤ c ∧ c ≤ '9')) :
    ∃ v, fromHexChar c = some v ∧ v < 16 ∧ hextable v = c ∧ c.utf8Size = 1 := by
  have hm := hexdigit_mem c h
  simp only [String.toList, List.mem_cons, List.mem_nil_iff, or_false] at hm
  rcases hm with rfl | rfl | rfl | rfl | rfl | rfl | rfl | rfl | rfl | rfl | rfl | rfl | rfl | rfl |
    rfl | rfl <;> exact ⟨_, rfl, by decide, by decide, by decide⟩

/-- Decoding accepted digits and encoding the bytes again gives the digits
back; two digits make one byte. -/
theorem hexDecodeString_encode :
    ∀ (l : List Char) (d : List Nat),
      (∀ c ∈ l, ('a' ≤ c ∧ c ≤ 'f') ∨ ('0' ≤ c ∧ c ≤ '9')) →
      hexDecodeString l = some d →
      d.flatMap (fun b => [hextable (b / 16), hextable (b % 16)]) = l ∧ 2 * d.length = l.length
  | [], d, _, hd => by
    simp [hexDecodeString] at hd
    subst hd
    simp
  | [_], d, _, hd => by simp [hexDecodeString] at hd
  | a :: b :: rest, d, hall, hd => by
    obtain ⟨x, hx, hx16, hxa, _⟩ := fromHexChar_hextable a (hall a (by simp))
    obtain ⟨y, hy, hy16, hyb, _⟩ := fromHexChar_hextable b (hall b (by simp))
    simp only [hexDecodeString, hx, hy] at hd
    cases hr : hexDecodeString rest with
    | none => simp [hr] at hd
    | some bytes =>
      simp only [hr, Option.some.injEq] at hd
      subst hd
      have ih := hexDecodeString_encode rest bytes
        (fun c hc => hall c (by simp [hc])) hr
      have h1 : (x * 16 + y) / 16 = x := by omega
      have h2 : (x * 16 + y) % 16 = y := by omega
      simp only [List.flatMap_cons, h1, h2, hxa, hyb, ih.1, List.length_cons]
      refine ⟨by simp, by omega⟩

/-- A text of accepted digits takes one byte per digit. -/
theorem utf8ByteSize_digits :
    ∀ (l : List Char), (∀ c ∈ l, ('a' ≤ c ∧ c ≤ 'f') ∨ ('0' ≤ c ∧ c ≤ '9')) →
      String.utf8ByteSize.go l = l.length
  | [], _ => rfl
  | c :: cs, hall => by
    obtain ⟨_, _, _, _, hsz⟩ := fromHexChar_hextable c (hall c (by simp))
    have ih := utf8ByteSize_digits cs (fun c hc => hall c (by simp [hc]))
    show String.utf8ByteSize.go cs + c.utf8Size = cs.length + 1
    rw [ih, hsz]

/-- What `decodeHex` returns for a text of `2 * n` bytes: `n` bytes that encode
to the text again. -/
theorem decodeHex_encode (h : String) (d : List Nat) (hd : decodeHex h = some d) :
    hexEncodeToString d = h ∧ 2 * d.length = h.utf8ByteSize := by
  unfold decodeHex at hd
  by_cases hall : h.toList.all (fun r => ('a' ≤ r ∧ r ≤ 'f') ∨ ('0' ≤ r ∧ r ≤ '9')) = true
  · rw [if_pos hall] at hd
    have hall' : ∀ c ∈ h.toList, ('a' ≤ c ∧ c ≤ 'f') ∨ ('0' ≤ c ∧ c ≤ '9') := by
      intro c hc
      have := List.all_eq_true.mp hall c hc
      simpa using this
    obtain ⟨h1, h2⟩ := hexDecodeString_encode h.toList d hall' hd
    refine ⟨?_, ?_⟩
    · unfold hexEncodeToString
      rw [h1]
      rfl
    · have := utf8ByteSize_digits h.toList hall'
      rw [h2]
      exact this.symm
  · rw [if_neg hall] at hd
    cases hd

/-- `copy` into an array of the length of the source gives the source. -/
theorem copyBytes_full (dst src : List Nat) (h : src.length = dst.length) :
    copyBytes dst src = src := by
  unfold copyBytes
  rw [← h, List.take_length]
  simp [h]

/-- A trace identifier parsed without error has 16 bytes and prints as the
text it was parsed from. -/
theorem TraceIDFromHex_ok (h : String) (tid : TraceID) (hp : TraceIDFromHex h = (tid, none)) :
    hexEncodeToString tid = h ∧ tid.length = 16 ∧ TraceID.IsValid tid = true := by
  unfold TraceIDFromHex at hp
  by_cases hl : h.utf8ByteSize ≠ 32
  · simp [hl] at hp
  · simp only [hl, if_false] at hp
    cases hd : decodeHex h with
    | none => simp [hd] at hp
    | some d =>
      simp only [hd] at hp
      obtain ⟨h1, h2⟩ := decodeHex_encode h d hd
      have hlen : d.length = nilTraceID.length := by
        have : nilTraceID.length = 16 := by decide
        omega
      rw [copyBytes_full _ _ hlen] at hp
      by_cases hv : TraceID.IsValid d = true
      · simp only [hv, Bool.not_true, Bool.false_eq_true, if_false, Prod.mk.injEq, and_true] at hp
        subst hp
        exact ⟨h1, by simpa using hlen, hv⟩
      · simp [hv] at hp

/-- A span identifier parsed without error has 8 bytes and prints as the text
it was parsed from. -/
theorem SpanIDFromHex_ok (h : String) (sid : SpanID) (hp : SpanIDFromHex h = (sid, none)) :
    hexEncodeToString sid = h ∧ sid.length = 8 ∧ SpanID.IsValid sid = true := by
  unfold SpanIDFromHex at hp
  by_cases hl : h.utf8ByteSize ≠ 16
  · simp [hl] at hp
  · simp only [hl, if_false] at hp
    cases hd : decodeHex h with
    | none => simp [hd] at hp
    | some d =>
      simp only [hd] at hp
      obtain ⟨h1, h2⟩ := decodeHex_encode h d hd
      have hlen : d.length = nilSpanID.length := by
        have : nilSpanID.length = 8 := by decide
        omega
      rw [copyBytes_full _ _ hlen] at hp
      by_cases hv : SpanID.IsValid d = true
      · simp only [hv, Bool.not_true, Bool.false_eq_true, if_false, Prod.mk.injEq, and_true] at hp
        subst hp
        exact ⟨h1, by simpa using hlen, hv⟩
      · simp [hv] at hp

/-! ## The handler: the sequence of its effects -/

/-- Joining a list of strings: the head, then the rest. -/
theorem join_cons (a : String) (l : List String) : String.join (a :: l) = a ++ String.join l := by
  rw [String.join_eq, String.join_eq]
  apply String.ext
  simp [String.data_append]

/-- Joining a concatenation of lists. -/
theorem join_append (l₁ l₂ : List String) :
    String.join (l₁ ++ l₂) = String.join l₁ ++ String.join l₂ := by
  rw [String.join_eq, String.join_eq, String.join_eq]
  apply String.ext
  simp [String.data_append]

/-- Joining no strings. -/
theorem join_nil : String.join [] = "" := rfl

/-- The loop `for k := range m { keys = append(keys, k) }`. -/
theorem foldl_append_keys (l acc : List String) :
    l.foldl (fun keys k => keys ++ [k]) acc = acc ++ l := by
  induction l generalizing acc with
  | nil => simp
  | cons a l ih => simp [ih]

/-- The loop `for _, v := range keys { resp.WriteString(g v) }`. -/
theorem foldl_WriteString (g : String → String) (l : List String) (f : Frame) :
    l.foldl (fun f v => f.WriteString (g v)) f =
      ⟨f.trace ++ l.map (fun v => Effect.write (g v)), f.resp ++ String.join (l.map g),
        f.deferred⟩ := by
  induction l generalizing f with
  | nil => simp [join_nil]
  | cons a l ih =>
    rw [List.foldl_cons, ih]
    simp only [Frame.WriteString, List.map_cons, join_cons, List.append_assoc,
      List.singleton_append, String.append_assoc]

/-- The operandless `Sprintf` of the no-body text leaves it as it is. -/
theorem Sprintf0_noBody : Sprintf0 "There's no body" = "There's no body" := by decide

/-- The state of the handler before it returns: the effects in order, the
buffer, and the two deferred `End` calls. -/
theorem devnullerBody_eq (env : Env) (now : String) (tick : Nat) (r : Request) :
    devnullerBody env now tick r =
      ⟨[Effect.spanStart (env.tr.Start tick r.ctx "foo" SpanKind.server).2,
          Effect.write (timestampLine now), Effect.write separator,
          Effect.write (greetingLine env r), Effect.write separator,
          Effect.write (methodLine env r), Effect.write separator,
          Effect.spanStart (env.tr.Start (tick + 1)
            (env.tr.Start tick r.ctx "foo" SpanKind.server).1 "foo2" SpanKind.server).2]
        ++ (queryLines env r).map Effect.write ++ [Effect.write separator]
        ++ (headerLines env r).map Effect.write
        ++ [Effect.write separator, Effect.write (bodyLine r),
            Effect.respond (Sprintf0 (String.join (layout env now r))),
            Effect.logPrintf (Sprintf0 (String.join (layout env now r)))],
       String.join (layout env now r),
       [Effect.spanEnd (env.tr.Start (tick + 1)
            (env.tr.Start tick r.ctx "foo" SpanKind.server).1 "foo2" SpanKind.server).2,
        Effect.spanEnd (env.tr.Start tick r.ctx "foo" SpanKind.server).2]⟩ := by
  have hresp : ("" ++ timestampLine now ++ separator ++ greetingLine env r ++ separator
      ++ methodLine env r ++ separator ++ String.join (queryLines env r) ++ separator
      ++ String.join (headerLines env r) ++ separator) ++ bodyLine r
      = String.join (layout env now r) := by
    simp only [layout, join_append, join_cons, join_nil, List.cons_append, List.nil_append,
      String.append_assoc, String.empty_append, String.append_empty]
  have hbody : (match r.Body with
      | none => Sprintf0 "There's no body"
      | some body => "The Body is " ++ body ++ "\n") = bodyLine r := by
    unfold bodyLine
    cases r.Body with
    | none => exact Sprintf0_noBody
    | some b => rfl
  have hmatch : ∀ f : Frame, (match r.Body with
      | none => f.WriteString (Sprintf0 "There's no body")
      | some body => f.WriteString ("The Body is " ++ body ++ "\n")) = f.WriteString (bodyLine r) := by
    intro f
    rw [← hbody]
    cases r.Body <;> rfl
  simp only [devnullerBody, foldl_append_keys, foldl_WriteString, List.nil_append, hmatch]
  simp only [Frame.emit, Frame.deferCall, Frame.WriteString, Tracer.Start]
  simp only [Frame.mk.injEq]
  refine ⟨?_, ?_, ?_⟩
  · rw [← hresp]
    simp [queryLines, headerLines, timestampLine, greetingLine, methodLine, separator,
      Function.comp_def]
  · exact hresp
  · trivial

/-! ## Sorting and maps -/

/-- The result of `sort.Strings` is in ascending order. -/
theorem sortStrings_sorted (l : List String) : (sortStrings l).Sorted strLE :=
  List.sorted_insertionSort strLE l

/-- The result of `sort.Strings` is a rearrangement of its argument. -/
theorem sortStrings_perm (l : List String) : (sortStrings l).Perm l :=
  List.perm_insertionSort strLE l

/-- Sorting distinct strings gives a strictly ascending list. -/
theorem sortStrings_strict (l : List String) (h : l.Nodup) : (sortStrings l).Sorted strLess := by
  have hs := sortStrings_sorted l
  have hn : (sortStrings l).Nodup := (sortStrings_perm l).nodup_iff.mpr h
  unfold List.Sorted at *
  have := hs.and hn
  refine this.imp ?_
  intro a b hab
  obtain ⟨hle, hne⟩ := hab
  exact @lt_of_le_of_ne (List Char) _ _ _ hle (fun heq => hne (String.ext heq))

/-- The order in which the keys are collected does not change the result of
sorting them. -/
theorem sortStrings_congr (l₁ l₂ : List String) (h : l₁.Perm l₂) :
    sortStrings l₁ = sortStrings l₂ :=
  List.eq_of_perm_of_sorted
    (((sortStrings_perm l₁).trans h).trans (sortStrings_perm l₂).symm)
    (sortStrings_sorted l₁) (sortStrings_sorted l₂)

/-- In a map, a key is looked up to what is stored under it. -/
theorem lookup_eq_some_iff (m : Values) (hwf : m.WF) (k : String) (vs : List String) :
    m.lookup k = some vs ↔ (k, vs) ∈ m := by
  induction m with
  | nil => simp
  | cons e m ih =>
    obtain ⟨k', vs'⟩ := e
    have hwf' : Values.WF m := (List.nodup_cons.mp hwf).2
    have hnot : k' ∉ m.map Prod.fst := (List.nodup_cons.mp hwf).1
    by_cases hk : k = k'
    · subst hk
      simp only [List.lookup_cons, beq_self_eq_true, Option.some.injEq, List.mem_cons,
        Prod.mk.injEq, true_and]
      constructor
      · intro h; exact Or.inl h.symm
      · rintro (h | h)
        · exact h.symm
        · exact absurd (List.mem_map_of_mem Prod.fst h) hnot
    · have hb : (k == k') = false := by simpa using hk
      simp only [List.lookup_cons, hb, List.mem_cons, Prod.mk.injEq, hk, false_and, false_or]
      exact ih hwf'

/-- Two maps with the same entries answer every lookup alike. -/
theorem lookup_perm (m₁ m₂ : Values) (hp : m₁.Perm m₂) (hwf : m₁.WF) (k : String) :
    m₁.lookup k = m₂.lookup k := by
  have hwf₂ : m₂.WF := (hp.map Prod.fst).nodup_iff.mp hwf
  apply Option.ext
  intro vs
  rw [Option.mem_def, Option.mem_def, lookup_eq_some_iff m₁ hwf, lookup_eq_some_iff m₂ hwf₂]
  exact hp.mem_iff

/-- A key of the map has a stored slice, and `m[k]` is that slice. -/
theorem index_of_mem (m : Values) (hwf : m.WF) (k : String) (vs : List String)
    (h : (k, vs) ∈ m) : m.index k = vs := by
  unfold Values.index
  rw [(lookup_eq_some_iff m hwf k vs).mpr h]
  rfl

/-- The keys of a map are the strings with a stored slice. -/
theorem mem_rangeKeys_iff (m : Values) (k : String) :
    k ∈ m.rangeKeys ↔ m.lookup k ≠ none := by
  induction m with
  | nil => simp [Values.rangeKeys]
  | cons e m ih =>
    obtain ⟨k', vs'⟩ := e
    by_cases hk : k = k'
    · subst hk
      simp [Values.rangeKeys, List.lookup_cons]
    · have hb : (k == k') = false := by simpa using hk
      simp only [Values.rangeKeys, List.map_cons, List.mem_cons, hk, false_or, List.lookup_cons, hb]
      exact ih

/-! ## Lines and separators -/

/-- A text starting with a character other than the dash is no separator. -/
theorem ne_separator (c : Char) (cs : List Char) (s : String) (hc : c ≠ '-') :
    String.mk (c :: cs) ++ s ≠ separator := by
  intro h
  have h' := congrArg String.data h
  rw [String.data_append] at h'
  have h'' : c = '-' := by
    have := congrArg List.head? h'
    simpa [separator] using this
  exact hc h''

theorem timestampLine_ne (now : String) : timestampLine now ≠ separator := by
  have := ne_separator 'T' "imestamp: ".toList (now ++ "\n") (by decide)
  simpa [timestampLine, String.append_assoc] using this

/-! ## The Tracing middleware: identifiers, malformed values, missing headers -/

/-- C1: when the three B3 headers are present and the first trace and span
identifier values parse without error, `Tracing` calls the next handler with a
context whose span context has exactly the parsed identifiers (which print as
the hexadecimal texts of the headers); it is sampled if and only if the first
`X-B3-Sampled` value is the string "1". -/
theorem Tracing_valid_headers {ρ : Type} (next : Request → ρ) (r : Request)
    (t s f : String) (ts ss fs : List String) (tid : TraceID) (sid : SpanID)
    (ht : r.Header.lookup "X-B3-Traceid" = some (t :: ts))
    (hs : r.Header.lookup "X-B3-Spanid" = some (s :: ss))
    (hf : r.Header.lookup "X-B3-Sampled" = some (f :: fs))
    (hvt : TraceIDFromHex t = (tid, none)) (hvs : SpanIDFromHex s = (sid, none)) :
    ∃ sc : SpanContext,
      Tracing next r = some (next (r.WithContext (ContextWithSpanContext r.ctx sc))) ∧
      Tracing (fun r' => SpanContextFromContext r'.ctx) r = some sc ∧
      Tracing (fun r' => (r'.Method, r'.Path, r'.Query, r'.Header, r'.Body)) r
        = some (r.Method, r.Path, r.Query, r.Header, r.Body) ∧
      SpanContextFromContext (ContextWithSpanContext r.ctx sc) = sc ∧
      sc.traceID = tid ∧ sc.spanID = sid ∧
      hexEncodeToString sc.traceID = t ∧ hexEncodeToString sc.spanID = s ∧
      (sc.IsSampled = true ↔ f = "1") := by
  refine ⟨NewSpanContext tid sid (if f = "1" then FlagsSampled else 0), ?_, ?_, ?_, rfl, rfl, rfl,
    (TraceIDFromHex_ok t tid hvt).1, (SpanIDFromHex_ok s sid hvs).1, sampled_iff tid sid f⟩
  · rw [Tracing_present next r t s f ts ss fs ht hs hf, hvt, hvs]
  · rw [Tracing_present _ r t s f ts ss fs ht hs hf, hvt, hvs]
    rfl
  · rw [Tracing_present _ r t s f ts ss fs ht hs hf]
    rfl

/-- C1, at the scenario request: trace identifier sixteen bytes `0x11`, span
identifier eight bytes `0x22`, sampled. -/
theorem Tracing_valid_headers_witness :
    TraceIDFromHex "11111111111111111111111111111111" = (List.replicate 16 17, none) ∧
    SpanIDFromHex "2222222222222222" = (List.replicate 8 34, none) ∧
    Tracing (fun r' => SpanContextFromContext r'.ctx) scenarioRequest
      = some ⟨List.replicate 16 17, List.replicate 8 34, 1⟩ ∧
    ∃ sc : SpanContext,
      Tracing (fun r => r.ctx) scenarioRequest
        = some ((scenarioRequest.WithContext
            (ContextWithSpanContext scenarioRequest.ctx sc)).ctx) ∧
      Tracing (fun r' => SpanContextFromContext r'.ctx) scenarioRequest = some sc ∧
      Tracing (fun r' => (r'.Method, r'.Path, r'.Query, r'.Header, r'.Body)) scenarioRequest
        = some (scenarioRequest.Method, scenarioRequest.Path, scenarioRequest.Query,
            scenarioRequest.Header, scenarioRequest.Body) ∧
      SpanContextFromContext (ContextWithSpanContext scenarioRequest.ctx sc) = sc ∧
      sc.traceID = List.replicate 16 17 ∧ sc.spanID = List.replicate 8 34 ∧
      hexEncodeToString sc.traceID = "11111111111111111111111111111111" ∧
      hexEncodeToString sc.spanID = "2222222222222222" ∧
      (sc.IsSampled = true ↔ "1" = "1") :=
  ⟨by decide, by decide, by decide,
    Tracing_valid_headers (fun r => r.ctx) scenarioRequest "11111111111111111111111111111111"
      "2222222222222222" "1" [] [] [] (List.replicate 16 17) (List.replicate 8 34)
      (by decide) (by decide) (by decide) (by decide) (by decide)⟩

/-- C2, as the code has it: when the three headers are present but an
identifier fails to parse, `Tracing` still calls the next handler, and the
context it hands on carries a span context built from the headers: the
identifier that failed is all-zero, the other one is as parsed, and the sampled
flag follows the `X-B3-Sampled` value. -/
theorem Tracing_malformed_ids {ρ : Type} (next : Request → ρ) (r : Request)
    (t s f : String) (ts ss fs : List String)
    (ht : r.Header.lookup "X-B3-Traceid" = some (t :: ts))
    (hs : r.Header.lookup "X-B3-Spanid" = some (s :: ss))
    (hf : r.Header.lookup "X-B3-Sampled" = some (f :: fs))
    (hbad : (TraceIDFromHex t).2 ≠ none ∨ (SpanIDFromHex s).2 ≠ none) :
    ∃ sc : SpanContext,
      Tracing next r = some (next (r.WithContext (ContextWithSpanContext r.ctx sc))) ∧
      Tracing (fun r' => SpanContextFromContext r'.ctx) r = some sc ∧
      Tracing (fun r' => (r'.Method, r'.Path, r'.Query, r'.Header, r'.Body)) r
        = some (r.Method, r.Path, r.Query, r.Header, r.Body) ∧
      SpanContextFromContext (ContextWithSpanContext r.ctx sc) = sc ∧
      sc.traceID = (TraceIDFromHex t).1 ∧ sc.spanID = (SpanIDFromHex s).1 ∧
      ((TraceIDFromHex t).2 ≠ none → sc.traceID = nilTraceID) ∧
      ((SpanIDFromHex s).2 ≠ none → sc.spanID = nilSpanID) ∧
      (sc.IsSampled = true ↔ f = "1") ∧
      sc.IsValid = false :=
  ⟨NewSpanContext (TraceIDFromHex t).1 (SpanIDFromHex s).1 (if f = "1" then FlagsSampled else 0),
    Tracing_present next r t s f ts ss fs ht hs hf,
    (Tracing_present _ r t s f ts ss fs ht hs hf).trans rfl,
    (Tracing_present _ r t s f ts ss fs ht hs hf).trans rfl, rfl, rfl, rfl,
    TraceIDFromHex_error t, SpanIDFromHex_error s, sampled_iff _ _ f, by
      rcases hbad with h | h
      · simp [SpanContext.IsValid, NewSpanContext, TraceIDFromHex_error t h, TraceID.IsValid]
      · simp [SpanContext.IsValid, NewSpanContext, SpanIDFromHex_error s h, SpanID.IsValid]⟩

/-- C2, at a request with the trace identifier `zz`. -/
theorem Tracing_malformed_ids_witness :
    ((TraceIDFromHex "zz").2 ≠ none ∨ (SpanIDFromHex "2222222222222222").2 ≠ none) ∧
    Tracing (fun r' => SpanContextFromContext r'.ctx) malformedRequest
      = some ⟨nilTraceID, List.replicate 8 34, 1⟩ ∧
    ∃ sc : SpanContext,
      Tracing (fun r => r.ctx) malformedRequest
        = some ((malformedRequest.WithContext
            (ContextWithSpanContext malformedRequest.ctx sc)).ctx) ∧
      Tracing (fun r' => SpanContextFromContext r'.ctx) malformedRequest = some sc ∧
      Tracing (fun r' => (r'.Method, r'.Path, r'.Query, r'.Header, r'.Body)) malformedRequest
        = some (malformedRequest.Method, malformedRequest.Path, malformedRequest.Query,
            malformedRequest.Header, malformedRequest.Body) ∧
      SpanContextFromContext (ContextWithSpanContext malformedRequest.ctx sc) = sc ∧
      sc.traceID = (TraceIDFromHex "zz").1 ∧ sc.spanID = (SpanIDFromHex "2222222222222222").1 ∧
      ((TraceIDFromHex "zz").2 ≠ none → sc.traceID = nilTraceID) ∧
      ((SpanIDFromHex "2222222222222222").2 ≠ none → sc.spanID = nilSpanID) ∧
      (sc.IsSampled = true ↔ "1" = "1") ∧
      sc.IsValid = false :=
  ⟨by decide, by decide,
    Tracing_malformed_ids (fun r => r.ctx) malformedRequest "zz" "2222222222222222" "1" [] [] []
      (by decide) (by decide) (by decide) (by decide)⟩

/-- C2 as stated fails: with the trace identifier `zz`, a well-formed span
identifier and `X-B3-Sampled: 1`, the context handed to the next handler
carries the inbound span identifier and is sampled; it is not the context
handed on when the headers are missing. -/
theorem Tracing_malformed_counterexample :
    (TraceIDFromHex "zz").2 = some IDError.errInvalidTraceIDLength ∧
    tracedContext malformedRequest
      = some ⟨some ⟨nilTraceID, List.replicate 8 34, 1⟩⟩ ∧
    tracedContext bareRequest = some ⟨none⟩ ∧
    tracedContext malformedRequest ≠ tracedContext bareRequest := by
  decide

/-- C5, as the code has it: when one of the three headers is missing,
`Tracing` calls the next handler with the request as it came; no span context
is attached and no identifier is generated, so that a request context without
a span still reads as the zero span context (all-zero identifiers, not
sampled). -/
theorem Tracing_missing_header {ρ : Type} (next : Request → ρ) (r : Request)
    (hmiss : r.Header.lookup "X-B3-Traceid" = none ∨ r.Header.lookup "X-B3-Spanid" = none
      ∨ r.Header.lookup "X-B3-Sampled" = none) :
    Tracing next r = some (next r) ∧ tracedContext r = some r.ctx ∧
    (r.ctx.span = none → Tracing (fun r' => SpanContextFromContext r'.ctx) r
      = some emptySpanContext) := by
  have key : ∀ {σ : Type} (nx : Request → σ), Tracing nx r = some (nx r) := by
    intro σ nx
    unfold Tracing
    rw [if_neg]
    rintro ⟨h1, h2, h3⟩
    rcases hmiss with h | h | h
    · exact h1 h
    · exact h2 h
    · exact h3 h
  refine ⟨key next, key _, ?_⟩
  intro hnone
  rw [key]
  simp [SpanContextFromContext, hnone]

/-- C5, at a request without headers. -/
theorem Tracing_missing_header_witness :
    (bareRequest.Header.lookup "X-B3-Traceid" = none ∨ bareRequest.Header.lookup "X-B3-Spanid" = none
      ∨ bareRequest.Header.lookup "X-B3-Sampled" = none) ∧
    Tracing (fun r => r.Path) bareRequest = some "/foo" ∧
    tracedContext bareRequest = some bareRequest.ctx ∧
    (bareRequest.ctx.span = none → Tracing (fun r' => SpanContextFromContext r'.ctx) bareRequest
      = some emptySpanContext) :=
  ⟨by decide, Tracing_missing_header (fun r => r.Path) bareRequest (by decide)⟩

/-- C5 as stated fails: for a request without the headers the span context
that reaches the next handler has the all-zero trace identifier. -/
theorem Tracing_missing_counterexample :
    bareRequest.Header.lookup "X-B3-Traceid" = none ∧
    Tracing (fun r => SpanContextFromContext r.ctx) bareRequest = some emptySpanContext ∧
    emptySpanContext.traceID = nilTraceID ∧
    TraceID.IsValid emptySpanContext.traceID = false := by
  decide

/-! ## The handler: report, lines and layout -/

/-- The effects of one invocation, in order. -/
theorem devnuller_eq (env : Env) (now : String) (tick : Nat) (r : Request) :
    devnuller env now tick r =
      [Effect.spanStart (env.tr.Start tick r.ctx "foo" SpanKind.server).2,
          Effect.write (timestampLine now), Effect.write separator,
          Effect.write (greetingLine env r), Effect.write separator,
          Effect.write (methodLine env r), Effect.write separator,
          Effect.spanStart (env.tr.Start (tick + 1)
            (env.tr.Start tick r.ctx "foo" SpanKind.server).1 "foo2" SpanKind.server).2]
        ++ (queryLines env r).map Effect.write ++ [Effect.write separator]
        ++ (headerLines env r).map Effect.write
        ++ [Effect.write separator, Effect.write (bodyLine r),
            Effect.respond (Sprintf0 (String.join (layout env now r))),
            Effect.logPrintf (Sprintf0 (String.join (layout env now r)))]
        ++ [Effect.spanEnd (env.tr.Start (tick + 1)
            (env.tr.Start tick r.ctx "foo" SpanKind.server).1 "foo2" SpanKind.server).2,
          Effect.spanEnd (env.tr.Start tick r.ctx "foo" SpanKind.server).2] := by
  unfold devnuller
  rw [devnullerBody_eq]
  rfl

/-- The buffer at the end of the handler holds the pieces of the layout. -/
theorem report_eq (env : Env) (now : String) (tick : Nat) (r : Request) :
    report env now tick r = String.join (layout env now r) := by
  unfold report
  rw [devnullerBody_eq]

/-- Filtering the writes out of a list of writes. -/
theorem writes_map_write (l : List String) : writes (l.map Effect.write) = l := by
  induction l with
  | nil => rfl
  | cons a l ih =>
    unfold writes at *
    simp only [List.map_cons, List.filterMap_cons, ih]

/-- The strings written to the buffer are the pieces of the layout. -/
theorem writes_devnuller (env : Env) (now : String) (tick : Nat) (r : Request) :
    writes (devnuller env now tick r) = layout env now r := by
  rw [devnuller_eq]
  have h := writes_map_write (queryLines env r)
  have h' := writes_map_write (headerLines env r)
  unfold writes at *
  simp only [List.filterMap_append, List.filterMap_cons, List.filterMap_nil, h, h', layout,
    List.cons_append, List.nil_append, List.append_assoc, List.append_nil]

/-- No query line is a separator. -/
theorem queryLine_ne (table : Char → Bool) (k : String) (vs : List String) :
    queryLine table k vs ≠ separator := by
  have := ne_separator 'Q' "uery field ".toList
    (Quote table k ++ (", Value " ++ (quoteSlice table vs ++ "\n"))) (by decide)
  simpa [queryLine, String.append_assoc] using this

/-- No header line is a separator. -/
theorem headerLine_ne (table : Char → Bool) (k : String) (vs : List String) :
    headerLine table k vs ≠ separator := by
  have := ne_separator 'H' "eader field ".toList
    (Quote table k ++ (", Value " ++ (quoteSlice table vs ++ "\n"))) (by decide)
  simpa [headerLine, String.append_assoc] using this

/-- The greeting line is no separator. -/
theorem greetingLine_ne (env : Env) (r : Request) : greetingLine env r ≠ separator := by
  have := ne_separator 'H' "ello, you've requested: ".toList
    (r.Path ++ (" on Pod: " ++ (env.hostname ++ " \n"))) (by decide)
  simpa [greetingLine, String.append_assoc] using this

/-- The method line is no separator. -/
theorem methodLine_ne (env : Env) (r : Request) : methodLine env r ≠ separator := by
  have := ne_separator 'T' "he Methode ".toList (Quote env.table r.Method ++ "\n") (by decide)
  simpa [methodLine, String.append_assoc] using this

/-- The body-presence line is no separator. -/
theorem bodyLine_ne (r : Request) : bodyLine r ≠ separator := by
  unfold bodyLine
  cases r.Body with
  | none => decide
  | some b =>
    have := ne_separator 'T' "he Body is ".toList (b ++ "\n") (by decide)
    simpa [String.append_assoc] using this

/-- The pieces of the layout hold five separators. -/
theorem layout_count_separator (env : Env) (now : String) (r : Request) :
    (layout env now r).count separator = 5 := by
  have hq : (queryLines env r).count separator = 0 := by
    rw [List.count_eq_zero]
    intro hmem
    obtain ⟨k, _, hk⟩ := List.mem_map.mp hmem
    exact queryLine_ne _ _ _ hk
  have hh : (headerLines env r).count separator = 0 := by
    rw [List.count_eq_zero]
    intro hmem
    obtain ⟨k, _, hk⟩ := List.mem_map.mp hmem
    exact headerLine_ne _ _ _ hk
  have h1 : (timestampLine now == separator) = false := by simpa using timestampLine_ne now
  have h2 : (greetingLine env r == separator) = false := by simpa using greetingLine_ne env r
  have h3 : (methodLine env r == separator) = false := by simpa using methodLine_ne env r
  have h4 : (bodyLine r == separator) = false := by simpa using bodyLine_ne r
  simp only [layout, List.count_append, List.count_cons, List.count_nil, hq, hh, h1, h2, h3, h4,
    beq_self_eq_true]
  rfl

/-! ## Quoting and line breaks -/

/-- A digit of `lowerhex` is no line break. -/
theorem lowerhex_ne_newline (n : Nat) : '\n' ≠ lowerhex n := by
  unfold lowerhex
  by_cases h : n < 16
  · interval_cases n <;> decide
  · have hlen : "0123456789abcdef".toList.length ≤ n := by
      have : "0123456789abcdef".toList.length = 16 := by decide
      omega
    rw [List.getD_eq_default _ _ hlen]
    decide

/-- The line break is not printable. -/
theorem IsPrint_newline (table : Char → Bool) : IsPrint table '\n' = false := by
  unfold IsPrint
  rw [if_pos (by decide)]
  decide

/-- Membership in the result of a conditional. -/
theorem mem_ite (c : Char) (p : Prop) [Decidable p] (a b : List Char)
    (h : c ∈ (if p then a else b)) : (p ∧ c ∈ a) ∨ (¬ p ∧ c ∈ b) := by
  by_cases hp : p
  · rw [if_pos hp] at h
    exact Or.inl ⟨hp, h⟩
  · rw [if_neg hp] at h
    exact Or.inr ⟨hp, h⟩

/-- What `strconv.Quote` writes for one character holds no line break. -/
theorem appendEscapedRune_noNL (table : Char → Bool) (r : Char) :
    '\n' ∉ appendEscapedRune table r := by
  have hx := lowerhex_ne_newline
  have hb : '\n' ≠ '\\' := by decide
  intro hmem
  unfold appendEscapedRune at hmem
  rcases mem_ite _ _ _ _ hmem with ⟨h1, hm⟩ | ⟨_, hm⟩
  · simp only [List.mem_cons, List.mem_nil_iff, or_false] at hm
    rcases hm with h | h
    · exact hb h
    · subst h
      exact absurd h1 (by decide)
  rcases mem_ite _ _ _ _ hm with ⟨h2, hm⟩ | ⟨_, hm⟩
  · have : '\n' = r := by simpa using hm
    subst this
    rw [IsPrint_newline] at h2
    exact Bool.false_ne_true h2
  rcases mem_ite _ _ _ _ hm with ⟨_, hm⟩ | ⟨_, hm⟩
  · exact absurd hm (by decide)
  rcases mem_ite _ _ _ _ hm with ⟨_, hm⟩ | ⟨_, hm⟩
  · exact absurd hm (by decide)
  rcases mem_ite _ _ _ _ hm with ⟨_, hm⟩ | ⟨_, hm⟩
  · exact absurd hm (by decide)
  rcases mem_ite _ _ _ _ hm with ⟨_, hm⟩ | ⟨_, hm⟩
  · exact absurd hm (by decide)
  rcases mem_ite _ _ _ _ hm with ⟨_, hm⟩ | ⟨_, hm⟩
  · exact absurd hm (by decide)
  rcases mem_ite _ _ _ _ hm with ⟨_, hm⟩ | ⟨_, hm⟩
  · exact absurd hm (by decide)
  rcases mem_ite _ _ _ _ hm with ⟨_, hm⟩ | ⟨_, hm⟩
  · exact absurd hm (by decide)
  rcases mem_ite _ _ _ _ hm with ⟨_, hm⟩ | ⟨_, hm⟩
  · simp only [List.mem_cons, List.mem_nil_iff, or_false] at hm
    rcases hm with h | h | h | h
    · exact hb h
    · exact absurd h (by decide)
    · exact hx _ h
    · exact hx _ h
  rcases mem_ite _ _ _ _ hm with ⟨_, hm⟩ | ⟨_, hm⟩
  · simp only [List.mem_cons, List.mem_nil_iff, or_false, List.cons_append, List.nil_append,
      List.map_cons, List.map_nil] at hm
    rcases hm with h | h | h | h | h | h
    · exact hb h
    · exact absurd h (by decide)
    all_goals exact hx _ h
  · simp only [List.mem_cons, List.mem_nil_iff, or_false, List.cons_append, List.nil_append,
      List.map_cons, List.map_nil] at hm
    rcases hm with h | h | h | h | h | h | h | h | h | h
    · exact hb h
    · exact absurd h (by decide)
    all_goals exact hx _ h

/-- The quoted form of a string holds no line break. -/
theorem Quote_noNL (table : Char → Bool) (s : String) : '\n' ∉ (Quote table s).toList := by
  intro hmem
  have hmem' : '\n' ∈ '"' :: (s.toList.flatMap (appendEscapedRune table)) ++ ['"'] := hmem
  rw [List.mem_append, List.mem_cons, List.mem_flatMap, List.mem_singleton] at hmem'
  rcases hmem' with (h | ⟨c, _, h⟩) | h
  · exact absurd h (by decide)
  · exact appendEscapedRune_noNL table c h
  · exact absurd h (by decide)

/-- Nothing is escaped in a plain character. -/
theorem appendEscapedRune_plain (table : Char → Bool) (c : Char)
    (h : 0x20 ≤ c.toNat ∧ c.toNat ≤ 0x7E ∧ c ≠ '"' ∧ c ≠ '\\') :
    appendEscapedRune table c = [c] := by
  obtain ⟨h1, h2, h3, h4⟩ := h
  have hp : IsPrint table c = true := by
    unfold IsPrint
    rw [if_pos (by omega), if_pos ⟨h1, h2⟩]
  unfold appendEscapedRune
  rw [if_neg (by rintro (h | h); exact h3 h; exact h4 h), if_pos hp]

/-- The quoted form of a plain string is the string between double quotes. -/
theorem Quote_plain (table : Char → Bool) (s : String) (h : Plain s) :
    Quote table s = "\"" ++ s ++ "\"" := by
  have key : ∀ l : List Char, (∀ c ∈ l, 0x20 ≤ c.toNat ∧ c.toNat ≤ 0x7E ∧ c ≠ '"' ∧ c ≠ '\\') →
      l.flatMap (appendEscapedRune table) = l := by
    intro l
    induction l with
    | nil => intro _; rfl
    | cons a l ih =>
      intro hl
      rw [List.flatMap_cons, appendEscapedRune_plain table a (hl a (by simp)),
        ih (fun c hc => hl c (by simp [hc]))]
      rfl
  unfold Quote
  rw [key s.toList h]
  rfl

/-- The characters of `strings.Join`-like `intercalate` come from the separator
or from the elements. -/
theorem intercalate_go_mem (c : Char) (sep : String) :
    ∀ (l : List String) (acc : String), c ∈ (String.intercalate.go acc sep l).toList →
      c ∈ acc.toList ∨ c ∈ sep.toList ∨ ∃ a ∈ l, c ∈ a.toList
  | [], acc, h => Or.inl h
  | a :: l, acc, h => by
    have ih := intercalate_go_mem c sep l (acc ++ sep ++ a) h
    have hd : (acc ++ sep ++ a).toList = acc.toList ++ sep.toList ++ a.toList := by
      simp [String.toList, String.data_append]
    rw [hd, List.mem_append, List.mem_append] at ih
    rcases ih with ((h1 | h1) | h1) | h1 | ⟨b, hb, h1⟩
    · exact Or.inl h1
    · exact Or.inr (Or.inl h1)
    · exact Or.inr (Or.inr ⟨a, List.mem_cons_self _ _, h1⟩)
    · exact Or.inr (Or.inl h1)
    · exact Or.inr (Or.inr ⟨b, List.mem_cons_of_mem _ hb, h1⟩)

/-- The values of a line, quoted and separated by blanks, hold no line break. -/
theorem intercalate_Quote_noNL (table : Char → Bool) (vs : List String) :
    '\n' ∉ (" ".intercalate (vs.map (Quote table))).toList := by
  intro hmem
  cases vs with
  | nil =>
    have : (" ".intercalate (List.map (Quote table) [])).toList = [] := rfl
    rw [this] at hmem
    cases hmem
  | cons v vs =>
    have h := intercalate_go_mem '\n' " " (vs.map (Quote table)) (Quote table v) hmem
    rcases h with h | h | ⟨a, ha, h⟩
    · exact Quote_noNL table v h
    · exact absurd h (by decide)
    · obtain ⟨w, _, rfl⟩ := List.mem_map.mp ha
      exact Quote_noNL table w h

/-! ## The lines of a text -/

/-- A piece without line break, followed by a line break, is the first line. -/
theorem splitLines_append (a rest : List Char) (h : '\n' ∉ a) :
    splitLines (a ++ '\n' :: rest) = a :: splitLines rest := by
  induction a with
  | nil => simp [splitLines]
  | cons c a ih =>
    have hc : c ≠ '\n' := fun e => h (by simp [e])
    have ha : '\n' ∉ a := fun e => h (by simp [e])
    rw [List.cons_append, splitLines, if_neg hc, ih ha]

/-- A text without line break is one line. -/
theorem splitLines_single (a : List Char) (h : '\n' ∉ a) : splitLines a = [a] := by
  induction a with
  | nil => rfl
  | cons c a ih =>
    have hc : c ≠ '\n' := fun e => h (by simp [e])
    have ha : '\n' ∉ a := fun e => h (by simp [e])
    rw [splitLines, if_neg hc, ih ha]

/-- The lines of a text made of pieces that each end in a line break and hold
no other one, followed by a rest: the pieces, then the lines of the rest. -/
theorem textLines_join (bs : List String) (t : String) (h : ∀ b ∈ bs, '\n' ∉ b.toList) :
    textLines (String.join (bs.map (fun b => b ++ "\n")) ++ t) = bs ++ textLines t := by
  induction bs with
  | nil => simp [join_nil]
  | cons b bs ih =>
    have hb : '\n' ∉ b.toList := h b (by simp)
    have ih' := ih (fun c hc => h c (by simp [hc]))
    rw [List.map_cons, join_cons, String.append_assoc, String.append_assoc]
    unfold textLines at *
    have hd : (b ++ ("\n" ++ (String.join (bs.map (fun b => b ++ "\n")) ++ t))).toList
        = b.toList ++ '\n' :: (String.join (bs.map (fun b => b ++ "\n")) ++ t).toList := by
      simp [String.toList, String.data_append]
    rw [hd, splitLines_append _ _ hb, List.map_cons, ih']
    rfl

/-! ## The text of the lines -/

/-- The query line of a key: its text and the line break. -/
theorem queryLine_eq (table : Char → Bool) (k : String) (vs : List String) :
    queryLine table k vs = queryText table k vs ++ "\n" := by
  have e1 : ∀ x : String, ", Value " ++ ("[" ++ x) = ", Value [" ++ x := fun x => by
    rw [← String.append_assoc]; rfl
  simp only [queryLine, queryText, quoteSlice, String.append_assoc, e1]

/-- The header line of a name: its text and the line break. -/
theorem headerLine_eq (table : Char → Bool) (k : String) (vs : List String) :
    headerLine table k vs = headerText table k vs ++ "\n" := by
  have e1 : ∀ x : String, ", Value " ++ ("[" ++ x) = ", Value [" ++ x := fun x => by
    rw [← String.append_assoc]; rfl
  simp only [headerLine, headerText, quoteSlice, String.append_assoc, e1]

/-- Line breaks in a concatenation. -/
theorem noNL_append (a b : String) (ha : '\n' ∉ a.toList) (hb : '\n' ∉ b.toList) :
    '\n' ∉ (a ++ b).toList := by
  intro h
  have h' : '\n' ∈ a.toList ++ b.toList := by
    simpa [String.toList, String.data_append] using h
  rcases List.mem_append.mp h' with h1 | h1
  · exact ha h1
  · exact hb h1

/-- The text of a query line holds no line break. -/
theorem queryText_noNL (table : Char → Bool) (k : String) (vs : List String) :
    '\n' ∉ (queryText table k vs).toList := by
  unfold queryText
  exact noNL_append _ _ (noNL_append _ _ (noNL_append _ _ (noNL_append _ _ (by decide)
    (Quote_noNL table k)) (by decide)) (intercalate_Quote_noNL table vs)) (by decide)

/-- The text of a header line holds no line break. -/
theorem headerText_noNL (table : Char → Bool) (k : String) (vs : List String) :
    '\n' ∉ (headerText table k vs).toList := by
  unfold headerText
  exact noNL_append _ _ (noNL_append _ _ (noNL_append _ _ (noNL_append _ _ (by decide)
    (Quote_noNL table k)) (by decide)) (intercalate_Quote_noNL table vs)) (by decide)

/-- Two texts with different first characters. -/
theorem ne_of_head (c d : Char) (cs ds : List Char) (s : String) (h : c ≠ d) :
    String.mk (c :: cs) ++ s ≠ String.mk (d :: ds) := by
  intro heq
  have h' := congrArg String.data heq
  rw [String.data_append] at h'
  exact h (List.cons.inj h').1

/-- The text of a query line is not the text of a separator. -/
theorem queryText_ne (table : Char → Bool) (k : String) (vs : List String) :
    queryText table k vs ≠ "---------" := by
  have := ne_of_head 'Q' '-' "uery field ".toList "--------".toList
    (Quote table k ++ (", Value [" ++ (" ".intercalate (vs.map (Quote table)) ++ "]"))) (by decide)
  simpa [queryText, String.append_assoc] using this

/-- The text of a header line is not the text of a separator. -/
theorem headerText_ne (table : Char → Bool) (k : String) (vs : List String) :
    headerText table k vs ≠ "---------" := by
  have := ne_of_head 'H' '-' "eader field ".toList "--------".toList
    (Quote table k ++ (", Value [" ++ (" ".intercalate (vs.map (Quote table)) ++ "]"))) (by decide)
  simpa [headerText, String.append_assoc] using this

/-- The pieces of the report: the texts of its lines, each with its line
break, and the body line. -/
theorem layout_eq_texts (env : Env) (now : String) (r : Request) :
    layout env now r = (reportTexts env now r).map (fun b => b ++ "\n") ++ [bodyLine r] := by
  have e1 : ∀ x : String, x ++ " \n" = x ++ " " ++ "\n" := fun x => by
    rw [String.append_assoc]; rfl
  have hq : queryLines env r
      = ((sortStrings r.Query.rangeKeys).map
          (fun k => queryText env.table k (r.Query.index k))).map (fun b => b ++ "\n") := by
    rw [List.map_map]
    exact List.map_congr_left (fun k _ => queryLine_eq _ _ _)
  have hh : headerLines env r
      = ((sortStrings r.Header.rangeKeys).map
          (fun k => headerText env.table k (r.Header.index k))).map (fun b => b ++ "\n") := by
    rw [List.map_map]
    exact List.map_congr_left (fun k _ => headerLine_eq _ _ _)
  unfold layout reportTexts
  rw [hq, hh]
  simp only [List.map_append, List.map_cons, List.map_nil, List.append_assoc, List.cons_append,
    List.nil_append, timestampLine, greetingLine, methodLine, e1]
  rfl

/-- The lines of the report when clock text, path, host name and body value
hold no line break. -/
theorem textLines_report (env : Env) (now : String) (tick : Nat) (r : Request)
    (hnow : '\n' ∉ now.toList) (hpath : '\n' ∉ r.Path.toList)
    (hhost : '\n' ∉ env.hostname.toList) (hbody : ∀ b, r.Body = some b → '\n' ∉ b.toList) :
    textLines (report env now tick r) = reportTexts env now r ++ bodyTexts r := by
  rw [report_eq, layout_eq_texts, join_append, join_cons, join_nil, String.append_empty]
  have hb : textLines (bodyLine r) = bodyTexts r := by
    unfold bodyLine bodyTexts
    cases hB : r.Body with
    | none => decide
    | some b =>
      have h1 : '\n' ∉ ("The Body is " ++ b).toList := noNL_append _ _ (by decide) (hbody b hB)
      have := textLines_join ["The Body is " ++ b] "" (by simpa using h1)
      simpa [join_cons, join_nil] using this
  rw [textLines_join _ _ ?_, hb]
  intro b hmem
  unfold reportTexts at hmem
  simp only [List.mem_append, List.mem_cons, List.mem_map, List.mem_nil_iff, or_false] at hmem
  rcases hmem with ((((h | h | h | h | h | h) | ⟨k, _, h⟩) | h) | ⟨k, _, h⟩) | h
  all_goals subst h
  · exact noNL_append _ _ (by decide) hnow
  · decide
  · exact noNL_append _ _ (noNL_append _ _ (noNL_append _ _ (noNL_append _ _ (by decide) hpath)
      (by decide)) hhost) (by decide)
  · decide
  · exact noNL_append _ _ (by decide) (Quote_noNL _ _)
  · decide
  · exact queryText_noNL _ _ _
  · decide
  · exact headerText_noNL _ _ _
  · decide

/-! ## The handler: sorted lines and the layout of the report -/

/-- C4: the query section of the report holds one line per key of the query
map, in strictly ascending key order; the line of a key is one line of text
that names the key and lists, between square brackets and separated by blanks,
the quoted values stored under the key, all of them and in their stored order
(a value of printable ASCII without double quote and backslash is quoted by
putting it between double quotes); the header section likewise. -/
theorem devnuller_sorted_lines (env : Env) (now : String) (tick : Nat) (r : Request)
    (hq : r.Query.WF) (hh : r.Header.WF) :
    writes (devnuller env now tick r) =
        ["Timestamp: " ++ now ++ "\n", "---------\n",
          "Hello, you've requested: " ++ r.Path ++ " on Pod: " ++ env.hostname ++ " \n",
          "---------\n", "The Methode " ++ Quote env.table r.Method ++ "\n", "---------\n"]
        ++ (sortStrings r.Query.rangeKeys).map
            (fun k => "Query field " ++ Quote env.table k ++ ", Value ["
              ++ " ".intercalate ((r.Query.index k).map (Quote env.table)) ++ "]" ++ "\n")
        ++ ["---------\n"]
        ++ (sortStrings r.Header.rangeKeys).map
            (fun k => "Header field " ++ Quote env.table k ++ ", Value ["
              ++ " ".intercalate ((r.Header.index k).map (Quote env.table)) ++ "]" ++ "\n")
        ++ ["---------\n", bodyLine r]
    ∧ (sortStrings r.Query.rangeKeys).Sorted strLess
    ∧ (sortStrings r.Query.rangeKeys).length = r.Query.length
    ∧ (∀ k, k ∈ sortStrings r.Query.rangeKeys ↔ r.Query.lookup k ≠ none)
    ∧ (∀ k vs, (k, vs) ∈ r.Query → r.Query.index k = vs)
    ∧ (sortStrings r.Header.rangeKeys).Sorted strLess
    ∧ (sortStrings r.Header.rangeKeys).length = r.Header.length
    ∧ (∀ k, k ∈ sortStrings r.Header.rangeKeys ↔ r.Header.lookup k ≠ none)
    ∧ (∀ k vs, (k, vs) ∈ r.Header → r.Header.index k = vs)
    ∧ (∀ (k : String) (vs : List String), '\n' ∉ ("Query field " ++ Quote env.table k ++ ", Value ["
          ++ " ".intercalate (vs.map (Quote env.table)) ++ "]").toList)
    ∧ (∀ (k : String) (vs : List String), '\n' ∉ ("Header field " ++ Quote env.table k ++ ", Value ["
          ++ " ".intercalate (vs.map (Quote env.table)) ++ "]").toList)
    ∧ (∀ s, Plain s → Quote env.table s = "\"" ++ s ++ "\"") := by
  refine ⟨?_, sortStrings_strict _ hq, ?_, ?_, fun k vs h => index_of_mem _ hq k vs h,
    sortStrings_strict _ hh, ?_, ?_, fun k vs h => index_of_mem _ hh k vs h,
    fun k vs => queryText_noNL env.table k vs, fun k vs => headerText_noNL env.table k vs,
    fun s hs => Quote_plain env.table s hs⟩
  · rw [writes_devnuller]
    have hql : queryLines env r = (sortStrings r.Query.rangeKeys).map
        (fun k => queryText env.table k (r.Query.index k) ++ "\n") :=
      List.map_congr_left (fun k _ => queryLine_eq _ _ _)
    have hhl : headerLines env r = (sortStrings r.Header.rangeKeys).map
        (fun k => headerText env.table k (r.Header.index k) ++ "\n") :=
      List.map_congr_left (fun k _ => headerLine_eq _ _ _)
    unfold layout
    rw [hql, hhl]
    rfl
  · rw [(sortStrings_perm _).length_eq]
    simp [Values.rangeKeys]
  · intro k
    rw [(sortStrings_perm _).mem_iff]
    exact mem_rangeKeys_iff _ k
  · rw [(sortStrings_perm _).length_eq]
    simp [Values.rangeKeys]
  · intro k
    rw [(sortStrings_perm _).mem_iff]
    exact mem_rangeKeys_iff _ k

set_option maxRecDepth 100000 in
/-- C4, at the scenario request `/foo?b=2&a=1`: the line of `a` comes before
the line of `b`; and, evaluated, what the handler writes for this request and
for a request with two values under each key. -/
theorem devnuller_sorted_lines_witness :
    scenarioRequest.Query.WF ∧ scenarioRequest.Header.WF ∧
    writes (devnuller sampleEnv "T" 0 scenarioRequest)
      = ["Timestamp: T\n", "---------\n", "Hello, you've requested: /foo on Pod: pod-1 \n",
         "---------\n", "The Methode \"GET\"\n", "---------\n",
         "Query field \"a\", Value [\"1\"]\n", "Query field \"b\", Value [\"2\"]\n",
         "---------\n",
         "Header field \"X-B3-Sampled\", Value [\"1\"]\n",
         "Header field \"X-B3-Spanid\", Value [\"2222222222222222\"]\n",
         "Header field \"X-B3-Traceid\", Value [\"11111111111111111111111111111111\"]\n",
         "---------\n", "There's no body"] ∧
    writes (devnuller sampleEnv "T" 0 multiValueRequest)
      = ["Timestamp: T\n", "---------\n", "Hello, you've requested: /foo on Pod: pod-1 \n",
         "---------\n", "The Methode \"GET\"\n", "---------\n",
         "Query field \"a\", Value [\"1\" \"3\"]\n", "Query field \"b\", Value [\"2\" \"\"]\n",
         "---------\n",
         "Header field \"Accept\", Value [\"text/html\" \"*/*\"]\n",
         "---------\n", "The Body is \x7b\x7d\n"] ∧
    (writes (devnuller sampleEnv "T" 0 scenarioRequest) =
        ["Timestamp: " ++ "T" ++ "\n", "---------\n",
          "Hello, you've requested: " ++ scenarioRequest.Path ++ " on Pod: "
            ++ sampleEnv.hostname ++ " \n",
          "---------\n", "The Methode " ++ Quote sampleEnv.table scenarioRequest.Method ++ "\n",
          "---------\n"]
        ++ (sortStrings scenarioRequest.Query.rangeKeys).map
            (fun k => "Query field " ++ Quote sampleEnv.table k ++ ", Value ["
              ++ " ".intercalate ((scenarioRequest.Query.index k).map (Quote sampleEnv.table))
              ++ "]" ++ "\n")
        ++ ["---------\n"]
        ++ (sortStrings scenarioRequest.Header.rangeKeys).map
            (fun k => "Header field " ++ Quote sampleEnv.table k ++ ", Value ["
              ++ " ".intercalate ((scenarioRequest.Header.index k).map (Quote sampleEnv.table))
              ++ "]" ++ "\n")
        ++ ["---------\n", bodyLine scenarioRequest]
    ∧ (sortStrings scenarioRequest.Query.rangeKeys).Sorted strLess
    ∧ (sortStrings scenarioRequest.Query.rangeKeys).length = scenarioRequest.Query.length
    ∧ (∀ k, k ∈ sortStrings scenarioRequest.Query.rangeKeys ↔ scenarioRequest.Query.lookup k ≠ none)
    ∧ (∀ k vs, (k, vs) ∈ scenarioRequest.Query → scenarioRequest.Query.index k = vs)
    ∧ (sortStrings scenarioRequest.Header.rangeKeys).Sorted strLess
    ∧ (sortStrings scenarioRequest.Header.rangeKeys).length = scenarioRequest.Header.length
    ∧ (∀ k, k ∈ sortStrings scenarioRequest.Header.rangeKeys
        ↔ scenarioRequest.Header.lookup k ≠ none)
    ∧ (∀ k vs, (k, vs) ∈ scenarioRequest.Header → scenarioRequest.Header.index k = vs)
    ∧ (∀ (k : String) (vs : List String), '\n' ∉ ("Query field " ++ Quote sampleEnv.table k ++ ", Value ["
          ++ " ".intercalate (vs.map (Quote sampleEnv.table)) ++ "]").toList)
    ∧ (∀ (k : String) (vs : List String), '\n' ∉ ("Header field " ++ Quote sampleEnv.table k ++ ", Value ["
          ++ " ".intercalate (vs.map (Quote sampleEnv.table)) ++ "]").toList)
    ∧ (∀ s, Plain s → Quote sampleEnv.table s = "\"" ++ s ++ "\"")) :=
  ⟨by decide, by decide, by decide, by decide,
    devnuller_sorted_lines sampleEnv "T" 0 scenarioRequest (by decide) (by decide)⟩

/-- The texts of the lines before the body line hold five separators. -/
theorem reportTexts_count (env : Env) (now : String) (r : Request) :
    (reportTexts env now r).count "---------" = 5 := by
  have hq : ((sortStrings r.Query.rangeKeys).map
      (fun k => queryText env.table k (r.Query.index k))).count "---------" = 0 := by
    rw [List.count_eq_zero]
    intro hmem
    obtain ⟨k, _, hk⟩ := List.mem_map.mp hmem
    exact queryText_ne _ _ _ hk
  have hh : ((sortStrings r.Header.rangeKeys).map
      (fun k => headerText env.table k (r.Header.index k))).count "---------" = 0 := by
    rw [List.count_eq_zero]
    intro hmem
    obtain ⟨k, _, hk⟩ := List.mem_map.mp hmem
    exact headerText_ne _ _ _ hk
  have h1 : ("Timestamp: " ++ now == "---------") = false := by
    have := ne_of_head 'T' '-' "imestamp: ".toList "--------".toList now (by decide)
    simpa using this
  have h2 : ("Hello, you've requested: " ++ r.Path ++ " on Pod: " ++ env.hostname ++ " "
      == "---------") = false := by
    have := ne_of_head 'H' '-' "ello, you've requested: ".toList "--------".toList
      (r.Path ++ (" on Pod: " ++ (env.hostname ++ " "))) (by decide)
    simpa [String.append_assoc] using this
  have h3 : ("The Methode " ++ Quote env.table r.Method == "---------") = false := by
    have := ne_of_head 'T' '-' "he Methode ".toList "--------".toList
      (Quote env.table r.Method) (by decide)
    simpa using this
  simp only [reportTexts, List.count_append, List.count_cons, List.count_nil, hq, hh, h1, h2, h3,
    beq_self_eq_true]
  rfl

/-- The lines the body line contributes hold no separator. -/
theorem bodyTexts_count (r : Request) : (bodyTexts r).count "---------" = 0 := by
  unfold bodyTexts
  cases r.Body with
  | none => decide
  | some b =>
    have h1 : ("The Body is " ++ b == "---------") = false := by
      have := ne_of_head 'T' '-' "he Body is ".toList "--------".toList b (by decide)
      simpa using this
    have h2 : (("" : String) == "---------") = false := by decide
    simp only [List.count_cons, List.count_nil, h1, h2]
    rfl

/-- C10, as the code has it: the rendered report is the timestamp line, a
separator, the greeting line with the path and the host name, a separator, the
method line, a separator, the query lines in ascending key order, a separator,
the header lines in ascending order, a separator and the body line, in this
order and with nothing else; the body line is the no-body text when `r.Body` is
nil and the text naming the body value otherwise; five of the pieces written
are separators, and when the clock text, the path, the host name and the body
value hold no line break, the lines of the report are exactly the lines of
these pieces, five of them separator lines. -/
theorem devnuller_report_layout (env : Env) (now : String) (tick : Nat) (r : Request) :
    report env now tick r =
        ("Timestamp: " ++ now ++ "\n") ++ "---------\n"
        ++ ("Hello, you've requested: " ++ r.Path ++ " on Pod: " ++ env.hostname ++ " \n")
        ++ "---------\n"
        ++ ("The Methode " ++ Quote env.table r.Method ++ "\n") ++ "---------\n"
        ++ String.join ((sortStrings r.Query.rangeKeys).map
            (fun k => "Query field " ++ Quote env.table k ++ ", Value ["
              ++ " ".intercalate ((r.Query.index k).map (Quote env.table)) ++ "]" ++ "\n"))
        ++ "---------\n"
        ++ String.join ((sortStrings r.Header.rangeKeys).map
            (fun k => "Header field " ++ Quote env.table k ++ ", Value ["
              ++ " ".intercalate ((r.Header.index k).map (Quote env.table)) ++ "]" ++ "\n"))
        ++ "---------\n"
        ++ bodyLine r
    ∧ (sortStrings r.Query.rangeKeys).Sorted strLE
    ∧ (sortStrings r.Query.rangeKeys).Perm (r.Query.map Prod.fst)
    ∧ (∀ k, k ∈ sortStrings r.Query.rangeKeys ↔ r.Query.lookup k ≠ none)
    ∧ (∀ k vs, r.Query.lookup k = some vs → r.Query.index k = vs)
    ∧ (sortStrings r.Header.rangeKeys).Sorted strLE
    ∧ (sortStrings r.Header.rangeKeys).Perm (r.Header.map Prod.fst)
    ∧ (∀ k, k ∈ sortStrings r.Header.rangeKeys ↔ r.Header.lookup k ≠ none)
    ∧ (∀ k vs, r.Header.lookup k = some vs → r.Header.index k = vs)
    ∧ (writes (devnuller env now tick r)).count "---------\n" = 5
    ∧ (writes (devnuller env now tick r)).length = 9 + r.Query.length + r.Header.length
    ∧ (r.Body = none → bodyLine r = "There's no body")
    ∧ (∀ b, r.Body = some b → bodyLine r = "The Body is " ++ b ++ "\n")
    ∧ ('\n' ∉ now.toList → '\n' ∉ r.Path.toList → '\n' ∉ env.hostname.toList →
        (∀ b, r.Body = some b → '\n' ∉ b.toList) →
        textLines (report env now tick r) =
            ["Timestamp: " ++ now, "---------",
              "Hello, you've requested: " ++ r.Path ++ " on Pod: " ++ env.hostname ++ " ",
              "---------", "The Methode " ++ Quote env.table r.Method, "---------"]
            ++ (sortStrings r.Query.rangeKeys).map
                (fun k => "Query field " ++ Quote env.table k ++ ", Value ["
                  ++ " ".intercalate ((r.Query.index k).map (Quote env.table)) ++ "]")
            ++ ["---------"]
            ++ (sortStrings r.Header.rangeKeys).map
                (fun k => "Header field " ++ Quote env.table k ++ ", Value ["
                  ++ " ".intercalate ((r.Header.index k).map (Quote env.table)) ++ "]")
            ++ ["---------"]
            ++ (match r.Body with
                | none => ["There's no body"]
                | some body => ["The Body is " ++ body, ""])
        ∧ (textLines (report env now tick r)).count "---------" = 5) := by
  have hql : queryLines env r = (sortStrings r.Query.rangeKeys).map
      (fun k => queryText env.table k (r.Query.index k) ++ "\n") :=
    List.map_congr_left (fun k _ => queryLine_eq _ _ _)
  have hhl : headerLines env r = (sortStrings r.Header.rangeKeys).map
      (fun k => headerText env.table k (r.Header.index k) ++ "\n") :=
    List.map_congr_left (fun k _ => headerLine_eq _ _ _)
  have hmem : ∀ (m : Values) (k : String), k ∈ sortStrings m.rangeKeys ↔ m.lookup k ≠ none := by
    intro m k
    rw [(sortStrings_perm _).mem_iff]
    exact mem_rangeKeys_iff _ k
  have hidx : ∀ (m : Values) (k : String) (vs : List String),
      m.lookup k = some vs → m.index k = vs := by
    intro m k vs h
    unfold Values.index
    rw [h]
    rfl
  refine ⟨?_, sortStrings_sorted _, sortStrings_perm _, hmem _, hidx _,
    sortStrings_sorted _, sortStrings_perm _, hmem _, hidx _, ?_, ?_, ?_, ?_, ?_⟩
  · rw [report_eq]
    have : String.join (layout env now r) =
        timestampLine now ++ separator ++ greetingLine env r ++ separator ++ methodLine env r
          ++ separator ++ String.join (queryLines env r) ++ separator
          ++ String.join (headerLines env r) ++ separator ++ bodyLine r := by
      simp only [layout, join_append, join_cons, join_nil, List.cons_append, List.nil_append,
        String.append_assoc, String.empty_append, String.append_empty]
    rw [this, hql, hhl]
    rfl
  · rw [writes_devnuller]
    exact layout_count_separator env now r
  · rw [writes_devnuller]
    have h1 : (queryLines env r).length = r.Query.length := by
      unfold queryLines
      rw [List.length_map, (sortStrings_perm _).length_eq]
      simp [Values.rangeKeys]
    have h2 : (headerLines env r).length = r.Header.length := by
      unfold headerLines
      rw [List.length_map, (sortStrings_perm _).length_eq]
      simp [Values.rangeKeys]
    simp only [layout, List.length_append, List.length_cons, List.length_nil, h1, h2]
    omega
  · intro h
    simp [bodyLine, h]
  · intro b h
    simp [bodyLine, h]
  · intro hnow hpath hhost hbody
    have key := textLines_report env now tick r hnow hpath hhost hbody
    refine ⟨key, ?_⟩
    rw [key, List.count_append, reportTexts_count, bodyTexts_count]

set_option maxRecDepth 100000 in
/-- C10, at the scenario request: the lines of the report. -/
theorem devnuller_report_layout_witness :
    '\n' ∉ "T".toList ∧ '\n' ∉ scenarioRequest.Path.toList ∧ '\n' ∉ sampleEnv.hostname.toList ∧
    (∀ b, scenarioRequest.Body = some b → '\n' ∉ b.toList) ∧
    textLines (report sampleEnv "T" 0 scenarioRequest)
      = ["Timestamp: T", "---------", "Hello, you've requested: /foo on Pod: pod-1 ",
         "---------", "The Methode \"GET\"", "---------",
         "Query field \"a\", Value [\"1\"]", "Query field \"b\", Value [\"2\"]",
         "---------",
         "Header field \"X-B3-Sampled\", Value [\"1\"]",
         "Header field \"X-B3-Spanid\", Value [\"2222222222222222\"]",
         "Header field \"X-B3-Traceid\", Value [\"11111111111111111111111111111111\"]",
         "---------", "There's no body"] ∧
    (textLines (report sampleEnv "T" 0 scenarioRequest)).count "---------" = 5 ∧
    (writes (devnuller sampleEnv "T" 0 scenarioRequest)).count "---------\n" = 5 :=
  ⟨by decide, by decide, by decide, fun _ h => Option.noConfusion h, by decide,
    ((devnuller_report_layout sampleEnv "T" 0 scenarioRequest).2.2.2.2.2.2.2.2.2.2.2.2.2
      (by decide) (by decide) (by decide) (fun _ h => Option.noConfusion h)).2,
    (devnuller_report_layout sampleEnv "T" 0 scenarioRequest).2.2.2.2.2.2.2.2.2.1⟩

set_option maxRecDepth 100000 in
/-- C10 as stated fails: for a request without a body whose path holds line
breaks, as the HTTP server hands it over, the report has six separator lines,
and its last line names the body value instead of being the no-body text. -/
theorem devnuller_layout_counterexample :
    (textLines (report sampleEnv "T" 0 newlineRequest)).count "---------" = 6 ∧
    textLines (report sampleEnv "T" 0 newlineRequest)
      = ["Timestamp: T", "---------", "Hello, you've requested: /a", "---------",
         "b on Pod: pod-1 ", "---------", "The Methode \"GET\"", "---------", "---------",
         "---------", "The Body is \x7b\x7d", ""] ∧
    newlineRequest.Body = some NoBody ∧
    bodyLine newlineRequest = "The Body is \x7b\x7d\n" ∧
    bodyLine newlineRequest ≠ "There's no body" := by
  decide

/-! ## Spans -/

/-- No span starts among writes. -/
theorem started_map_write (l : List String) : started (l.map Effect.write) = [] := by
  induction l with
  | nil => rfl
  | cons a l ih =>
    unfold started at *
    simp only [List.map_cons, List.filterMap_cons, ih]

/-- No span ends among writes. -/
theorem ended_map_write (l : List String) : ended (l.map Effect.write) = [] := by
  induction l with
  | nil => rfl
  | cons a l ih =>
    unfold ended at *
    simp only [List.map_cons, List.filterMap_cons, ih]

/-- The spans an invocation starts: the outer one, then the inner one. -/
theorem started_devnuller (env : Env) (now : String) (tick : Nat) (r : Request) :
    started (devnuller env now tick r) =
      [(env.tr.Start tick r.ctx "foo" SpanKind.server).2,
       (env.tr.Start (tick + 1) (env.tr.Start tick r.ctx "foo" SpanKind.server).1 "foo2"
          SpanKind.server).2] := by
  rw [devnuller_eq]
  have h := started_map_write (queryLines env r)
  have h' := started_map_write (headerLines env r)
  unfold started at *
  simp only [List.filterMap_append, List.filterMap_cons, List.filterMap_nil, h, h',
    List.cons_append, List.nil_append, List.append_nil]

/-- The spans an invocation ends: the inner one, then the outer one. -/
theorem ended_devnuller (env : Env) (now : String) (tick : Nat) (r : Request) :
    ended (devnuller env now tick r) =
      [(env.tr.Start (tick + 1) (env.tr.Start tick r.ctx "foo" SpanKind.server).1 "foo2"
          SpanKind.server).2,
       (env.tr.Start tick r.ctx "foo" SpanKind.server).2] := by
  rw [devnuller_eq]
  have h := ended_map_write (queryLines env r)
  have h' := ended_map_write (headerLines env r)
  unfold ended at *
  simp only [List.filterMap_append, List.filterMap_cons, List.filterMap_nil, h, h',
    List.cons_append, List.nil_append, List.append_nil]

/-- A span started by the SDK tracer has a valid trace identifier when the
generator yields valid ones. -/
theorem sdkTracer_valid (gen : IDGenerator) (hgen : gen.Valid) (n : Nat) (psc : SpanContext) :
    TraceID.IsValid ((sdkTracer gen).newSpanContext n psc).traceID = true := by
  unfold sdkTracer
  simp only [NewSpanContext]
  by_cases h : TraceID.IsValid psc.traceID = true
  · simp [h]
  · simp only [h, Bool.not_false, if_true]
    exact hgen n

/-- A span started by the SDK tracer under a parent with a valid trace
identifier keeps that identifier. -/
theorem sdkTracer_inherits (gen : IDGenerator) (n : Nat) (psc : SpanContext)
    (h : TraceID.IsValid psc.traceID = true) :
    ((sdkTracer gen).newSpanContext n psc).traceID = psc.traceID := by
  unfold sdkTracer
  simp [NewSpanContext, h]

/-- The sample generator yields valid trace identifiers. -/
theorem sampleGen_valid : IDGenerator.Valid sampleGen := by
  intro n
  simp [sampleGen, TraceID.IsValid, nilTraceID, List.replicate]

/-- C6: an invocation starts exactly two spans and ends exactly two, the two it
started, each once (the `End` calls are deferred and run when the handler
returns); the inner span is started from the context that starting the outer
span returned, so its parent is the outer span and, with the SDK tracer or with
no tracer installed, it has the trace identifier of the outer span. -/
theorem devnuller_two_spans (env : Env) (now : String) (tick : Nat) (r : Request)
    (htr : env.tr = noopTracer ∨ ∃ gen : IDGenerator, gen.Valid ∧ env.tr = sdkTracer gen) :
    ∃ outer inner : Context × Span,
      outer = env.tr.Start tick r.ctx "foo" SpanKind.server ∧
      inner = env.tr.Start (tick + 1) outer.1 "foo2" SpanKind.server ∧
      started (devnuller env now tick r) = [outer.2, inner.2] ∧
      ended (devnuller env now tick r) = [inner.2, outer.2] ∧
      outer.2 ≠ inner.2 ∧
      (devnuller env now tick r).count (Effect.spanEnd outer.2) = 1 ∧
      (devnuller env now tick r).count (Effect.spanEnd inner.2) = 1 ∧
      outer.1.span = some outer.2.sc ∧
      inner.2.parent = outer.2.sc ∧
      inner.2.sc.traceID = outer.2.sc.traceID := by
  have hne : (env.tr.Start tick r.ctx "foo" SpanKind.server).2 ≠
      (env.tr.Start (tick + 1) (env.tr.Start tick r.ctx "foo" SpanKind.server).1 "foo2"
        SpanKind.server).2 := by
    intro h
    have h' := congrArg Span.name h
    simp [Tracer.Start] at h'
  have hcount : ∀ s : Span,
      (devnuller env now tick r).count (Effect.spanEnd s) = (ended (devnuller env now tick r)).count s := by
    intro s
    generalize devnuller env now tick r = l
    induction l with
    | nil => rfl
    | cons e l ih =>
      cases e with
      | spanEnd s' =>
        by_cases hs : s' = s
        · subst hs
          simp [ended, List.count_cons] at ih ⊢
          exact ih
        · have hb : (Effect.spanEnd s' == Effect.spanEnd s) = false := by simpa using hs
          have hb' : (s' == s) = false := by simpa using hs
          simp only [ended, List.count_cons, hb, List.filterMap_cons, hb'] at ih ⊢
          simpa using ih
      | spanStart s' => simpa [ended, List.count_cons] using ih
      | write s' => simpa [ended, List.count_cons] using ih
      | respond s' => simpa [ended, List.count_cons] using ih
      | logPrintf s' => simpa [ended, List.count_cons] using ih
  refine ⟨_, _, rfl, rfl, started_devnuller env now tick r, ended_devnuller env now tick r, hne,
    ?_, ?_, rfl, rfl, ?_⟩
  · rw [hcount, ended_devnuller]
    simp [List.count_cons, hne, Ne.symm hne]
  · rw [hcount, ended_devnuller]
    simp [List.count_cons, hne, Ne.symm hne]
  · rcases htr with h | ⟨gen, hgen, h⟩
    · rw [h]
      rfl
    · rw [h]
      exact sdkTracer_inherits gen _ _ (sdkTracer_valid gen hgen _ _)

/-- C6, at the scenario request with the SDK tracer. -/
theorem devnuller_two_spans_witness :
    (sampleEnv.tr = noopTracer ∨ ∃ gen : IDGenerator, gen.Valid ∧ sampleEnv.tr = sdkTracer gen) ∧
    ∃ outer inner : Context × Span,
      outer = sampleEnv.tr.Start 0 scenarioRequest.ctx "foo" SpanKind.server ∧
      inner = sampleEnv.tr.Start (0 + 1) outer.1 "foo2" SpanKind.server ∧
      started (devnuller sampleEnv "T" 0 scenarioRequest) = [outer.2, inner.2] ∧
      ended (devnuller sampleEnv "T" 0 scenarioRequest) = [inner.2, outer.2] ∧
      outer.2 ≠ inner.2 ∧
      (devnuller sampleEnv "T" 0 scenarioRequest).count (Effect.spanEnd outer.2) = 1 ∧
      (devnuller sampleEnv "T" 0 scenarioRequest).count (Effect.spanEnd inner.2) = 1 ∧
      outer.1.span = some outer.2.sc ∧
      inner.2.parent = outer.2.sc ∧
      inner.2.sc.traceID = outer.2.sc.traceID :=
  ⟨Or.inr ⟨sampleGen, sampleGen_valid, rfl⟩,
    devnuller_two_spans sampleEnv "T" 0 scenarioRequest (Or.inr ⟨sampleGen, sampleGen_valid, rfl⟩)⟩

/-- C7, as the code has it: both spans are started with the kind "server"; the
inner span is started after the third separator, just before the query lines
are written; both `End` calls are deferred, so the inner span ends only after
the header lines, the body line, the response and the log message, immediately
before the outer span ends. -/
theorem devnuller_span_extent (env : Env) (now : String) (tick : Nat) (r : Request) :
    ∃ outer inner : Span,
      outer.name = "foo" ∧ outer.kind = SpanKind.server ∧
      inner.name = "foo2" ∧ inner.kind = SpanKind.server ∧
      devnuller env now tick r =
        [Effect.spanStart outer,
          Effect.write (timestampLine now), Effect.write separator,
          Effect.write (greetingLine env r), Effect.write separator,
          Effect.write (methodLine env r), Effect.write separator,
          Effect.spanStart inner]
        ++ (queryLines env r).map Effect.write ++ [Effect.write separator]
        ++ (headerLines env r).map Effect.write
        ++ [Effect.write separator, Effect.write (bodyLine r),
            Effect.respond (Sprintf0 (report env now tick r)),
            Effect.logPrintf (Sprintf0 (report env now tick r))]
        ++ [Effect.spanEnd inner, Effect.spanEnd outer] := by
  refine ⟨(env.tr.Start tick r.ctx "foo" SpanKind.server).2,
    (env.tr.Start (tick + 1) (env.tr.Start tick r.ctx "foo" SpanKind.server).1 "foo2"
      SpanKind.server).2, rfl, rfl, rfl, rfl, ?_⟩
  rw [report_eq]
  exact devnuller_eq env now tick r

/-- C7 as stated fails: at the scenario request the inner span has the kind
"server", not "internal", and its `End` is the last effect but one, after the
header lines, the body line, the response and the log message. -/
theorem devnuller_span_counterexample :
    (started (devnuller sampleEnv "T" 0 scenarioRequest)).map (fun s => (s.name, s.kind))
      = [("foo", SpanKind.server), ("foo2", SpanKind.server)] ∧
    SpanKind.server ≠ SpanKind.internal ∧
    (devnuller sampleEnv "T" 0 scenarioRequest).map Effect.kindOf
      = [EffectKind.spanStart, EffectKind.write, EffectKind.write, EffectKind.write,
         EffectKind.write, EffectKind.write, EffectKind.write, EffectKind.spanStart,
         EffectKind.write, EffectKind.write,
         EffectKind.write,
         EffectKind.write, EffectKind.write, EffectKind.write,
         EffectKind.write, EffectKind.write, EffectKind.respond, EffectKind.logPrintf,
         EffectKind.spanEnd, EffectKind.spanEnd] ∧
    (ended (devnuller sampleEnv "T" 0 scenarioRequest)).map (fun s => s.name)
      = ["foo2", "foo"] := by
  decide

/-! ## The response, the log and determinism -/

/-- No response is written among writes. -/
theorem responses_map_write (l : List String) : responses (l.map Effect.write) = [] := by
  induction l with
  | nil => rfl
  | cons a l ih =>
    unfold responses at *
    simp only [List.map_cons, List.filterMap_cons, ih]

/-- No message is logged among writes. -/
theorem logged_map_write (l : List String) : logged (l.map Effect.write) = [] := by
  induction l with
  | nil => rfl
  | cons a l ih =>
    unfold logged at *
    simp only [List.map_cons, List.filterMap_cons, ih]

/-- The response of an invocation: one write, the report passed through
`Fprintf` as a format. -/
theorem responses_devnuller (env : Env) (now : String) (tick : Nat) (r : Request) :
    responses (devnuller env now tick r) = [Sprintf0 (report env now tick r)] := by
  rw [devnuller_eq, report_eq]
  have h := responses_map_write (queryLines env r)
  have h' := responses_map_write (headerLines env r)
  unfold responses at *
  simp only [List.filterMap_append, List.filterMap_cons, List.filterMap_nil, h, h',
    List.cons_append, List.nil_append, List.append_nil]

/-- The log message of an invocation: one message, the report passed through
`Printf` as a format. -/
theorem logged_devnuller (env : Env) (now : String) (tick : Nat) (r : Request) :
    logged (devnuller env now tick r) = [Sprintf0 (report env now tick r)] := by
  rw [devnuller_eq, report_eq]
  have h := logged_map_write (queryLines env r)
  have h' := logged_map_write (headerLines env r)
  unfold logged at *
  simp only [List.filterMap_append, List.filterMap_cons, List.filterMap_nil, h, h',
    List.cons_append, List.nil_append, List.append_nil]

set_option maxRecDepth 100000 in
/-- C3, where the code departs from it: for the path `/%d` the buffer holds
the path as requested, but the response body and the log message hold
`%!d(MISSING)` in its place, because the report is used as the format of
`Fprintf` and `Printf`. -/
theorem devnuller_percent_response :
    report sampleEnv "2026-11-04 10:10:00 +0000 UTC" 0 percentRequest
      = "Timestamp: 2026-11-04 10:10:00 +0000 UTC\n---------\nHello, you've requested: /%d on Pod: pod-1 \n---------\nThe Methode \"GET\"\n---------\n---------\nHeader field \"Accept\", Value [\"*/*\"]\n---------\nThe Body is \x7b\x7d\n" ∧
    responses (devnuller sampleEnv "2026-11-04 10:10:00 +0000 UTC" 0 percentRequest)
      = ["Timestamp: 2026-11-04 10:10:00 +0000 UTC\n---------\nHello, you've requested: /%!d(MISSING) on Pod: pod-1 \n---------\nThe Methode \"GET\"\n---------\n---------\nHeader field \"Accept\", Value [\"*/*\"]\n---------\nThe Body is \x7b\x7d\n"] ∧
    logged (devnuller sampleEnv "2026-11-04 10:10:00 +0000 UTC" 0 percentRequest)
      = responses (devnuller sampleEnv "2026-11-04 10:10:00 +0000 UTC" 0 percentRequest) ∧
    responses (devnuller sampleEnv "2026-11-04 10:10:00 +0000 UTC" 0 percentRequest)
      ≠ [report sampleEnv "2026-11-04 10:10:00 +0000 UTC" 0 percentRequest] := by
  decide

/-- The pieces of the report depend on the maps only through their entries. -/
theorem layout_congr (env : Env) (now : String) (r₁ r₂ : Request)
    (hm : r₁.Method = r₂.Method) (hp : r₁.Path = r₂.Path) (hb : r₁.Body = r₂.Body)
    (hq : r₁.Query.Perm r₂.Query) (hh : r₁.Header.Perm r₂.Header)
    (hqwf : r₁.Query.WF) (hhwf : r₁.Header.WF) :
    layout env now r₁ = layout env now r₂ := by
  have hqk : sortStrings r₁.Query.rangeKeys = sortStrings r₂.Query.rangeKeys :=
    sortStrings_congr _ _ (hq.map Prod.fst)
  have hhk : sortStrings r₁.Header.rangeKeys = sortStrings r₂.Header.rangeKeys :=
    sortStrings_congr _ _ (hh.map Prod.fst)
  have hqi : ∀ k, r₁.Query.index k = r₂.Query.index k := by
    intro k
    unfold Values.index
    rw [lookup_perm _ _ hq hqwf k]
  have hhi : ∀ k, r₁.Header.index k = r₂.Header.index k := by
    intro k
    unfold Values.index
    rw [lookup_perm _ _ hh hhwf k]
  have hql : queryLines env r₁ = queryLines env r₂ := by
    unfold queryLines
    rw [hqk]
    exact List.map_congr_left (fun k _ => by rw [hqi k])
  have hhl : headerLines env r₁ = headerLines env r₂ := by
    unfold headerLines
    rw [hhk]
    exact List.map_congr_left (fun k _ => by rw [hhi k])
  unfold layout
  rw [hql, hhl]
  simp only [greetingLine, methodLine, bodyLine, hm, hp, hb]

/-- C9, as the code has it: two invocations of the handler at the same clock
reading, for requests with the same method, path and body and with query maps
and header maps that hold the same entries in whatever order, render the same
report, write the same response and log the same message. -/
theorem devnuller_deterministic (env : Env) (now : String) (tick₁ tick₂ : Nat)
    (r₁ r₂ : Request)
    (hm : r₁.Method = r₂.Method) (hp : r₁.Path = r₂.Path) (hb : r₁.Body = r₂.Body)
    (hq : r₁.Query.Perm r₂.Query) (hh : r₁.Header.Perm r₂.Header)
    (hqwf : r₁.Query.WF) (hhwf : r₁.Header.WF) :
    report env now tick₁ r₁ = report env now tick₂ r₂ ∧
    responses (devnuller env now tick₁ r₁) = responses (devnuller env now tick₂ r₂) ∧
    logged (devnuller env now tick₁ r₁) = logged (devnuller env now tick₂ r₂) := by
  have h : report env now tick₁ r₁ = report env now tick₂ r₂ := by
    rw [report_eq, report_eq, layout_congr env now r₁ r₂ hm hp hb hq hh hqwf hhwf]
  refine ⟨h, ?_, ?_⟩
  · rw [responses_devnuller, responses_devnuller, h]
  · rw [logged_devnuller, logged_devnuller, h]

/-- C9, at the scenario request and the same request with its maps visited in
another order. -/
theorem devnuller_deterministic_witness :
    scenarioRequest.Query ≠ scenarioRequestReordered.Query ∧
    scenarioRequest.Header ≠ scenarioRequestReordered.Header ∧
    (report sampleEnv "T" 0 scenarioRequest = report sampleEnv "T" 2 scenarioRequestReordered ∧
    responses (devnuller sampleEnv "T" 0 scenarioRequest)
      = responses (devnuller sampleEnv "T" 2 scenarioRequestReordered) ∧
    logged (devnuller sampleEnv "T" 0 scenarioRequest)
      = logged (devnuller sampleEnv "T" 2 scenarioRequestReordered)) :=
  ⟨by decide, by decide,
    devnuller_deterministic sampleEnv "T" 0 2 scenarioRequest scenarioRequestReordered
      rfl rfl rfl (by decide) (by decide) (by decide) (by decide)⟩

/-- C9 as stated fails: the same request handled at two clock readings gives
two different reports, because the report starts with the time of the
invocation. -/
theorem devnuller_clock_counterexample :
    report sampleEnv "2026-11-04 10:10:00 +0000 UTC" 0 scenarioRequest
      ≠ report sampleEnv "2026-11-04 10:10:01 +0000 UTC" 0 scenarioRequest := by
  decide

/-! ## Run: a failed shutdown -/

/-- Two texts that differ at the character after a common beginning. -/
theorem ne_of_differ (p : List Char) (c d : Char) (cs ds : List Char) (s t : String)
    (h : c ≠ d) : String.mk (p ++ c :: cs) ++ s ≠ String.mk (p ++ d :: ds) ++ t := by
  intro heq
  have h' := congrArg String.data heq
  simp only [String.data_append, List.append_assoc, List.cons_append] at h'
  have h'' := List.append_cancel_left h'
  exact h (List.cons.inj h'').1

/-- C8, as the code has it: when `os.Hostname` succeeds, the listener does not
fail and `server.Shutdown` returns an error, `Run` logs the start, the
shutdown and, exactly once, that the server was unable to shut down
gracefully, and then the process is terminated with exit status 1 inside
`log.Fatalf`; `Run` does not return. -/
theorem Run_shutdown_error (config : Config) (w : World) (hostname err : String)
    (hh : w.hostname = Except.ok hostname) (hl : w.listenErr = none)
    (hs : w.shutdownErr = some err) :
    Run config w =
      (["Server is starting on " ++ (config.Host ++ ":" ++ config.Port) ++ "\n",
        "Server is shutting down due to " ++ w.interrupt ++ "\n",
        ungracefulMessage err], Outcome.exited 1) ∧
    (Run config w).2 ≠ Outcome.returned ∧
    (Run config w).1.count (ungracefulMessage err) = 1 := by
  have hrun : Run config w =
      (["Server is starting on " ++ (config.Host ++ ":" ++ config.Port) ++ "\n",
        "Server is shutting down due to " ++ w.interrupt ++ "\n",
        ungracefulMessage err], Outcome.exited 1) := by
    simp [Run, hh, hl, hs]
  have h1 : ("Server is starting on " ++ (config.Host ++ ":" ++ config.Port) ++ "\n"
      == ungracefulMessage err) = false := by
    have := ne_of_differ "Server ".toList 'i' 'w' "s starting on ".toList
      "as unable to gracefully shutdown due to err: ".toList
      ((config.Host ++ ":" ++ config.Port) ++ "\n") err (by decide)
    simpa [ungracefulMessage, String.append_assoc] using this
  have h2 : ("Server is shutting down due to " ++ w.interrupt ++ "\n"
      == ungracefulMessage err) = false := by
    have := ne_of_differ "Server ".toList 'i' 'w' "s shutting down due to ".toList
      "as unable to gracefully shutdown due to err: ".toList
      (w.interrupt ++ "\n") err (by decide)
    simpa [ungracefulMessage, String.append_assoc] using this
  refine ⟨hrun, ?_, ?_⟩
  · rw [hrun]
    exact fun h => Outcome.noConfusion h
  · rw [hrun]
    simp only [List.count_cons, List.count_nil, h1, h2, beq_self_eq_true]
    rfl

/-- C8, at a run whose shutdown deadline elapses. -/
theorem Run_shutdown_error_witness :
    timedOutWorld.hostname = Except.ok "pod-1" ∧ timedOutWorld.listenErr = none ∧
    timedOutWorld.shutdownErr = some "context deadline exceeded" ∧
    (Run sampleConfig timedOutWorld =
      (["Server is starting on " ++ (sampleConfig.Host ++ ":" ++ sampleConfig.Port) ++ "\n",
        "Server is shutting down due to " ++ timedOutWorld.interrupt ++ "\n",
        ungracefulMessage "context deadline exceeded"], Outcome.exited 1) ∧
    (Run sampleConfig timedOutWorld).2 ≠ Outcome.returned ∧
    (Run sampleConfig timedOutWorld).1.count (ungracefulMessage "context deadline exceeded") = 1) :=
  ⟨rfl, rfl, rfl,
    Run_shutdown_error sampleConfig timedOutWorld "pod-1" "context deadline exceeded" rfl rfl rfl⟩

/-- C8 as stated fails: when `Shutdown` returns the deadline error, `Run` does
not return; the process exits with status 1. -/
theorem Run_shutdown_counterexample :
    Run sampleConfig timedOutWorld =
      (["Server is starting on 0.0.0.0:8080\n", "Server is shutting down due to interrupt\n",
        "Server was unable to gracefully shutdown due to err: context deadline exceeded"],
       Outcome.exited 1) ∧
    (Run sampleConfig timedOutWorld).2 ≠ Outcome.returned := by
  decide

end Devnull
